import Mathlib

/-!
Verification development for the Apromore chatbot's answer-verification and
telemetry-rollup engine.  The Python sources (`backend/metrics.py`,
`backend/kpi_verifier.py`, `backend/kpi_rollup.py`) are shallowly embedded:
pandas dataframes become `Table` (a column list plus aligned rows of cells),
Python floats become rationals with `none` standing for NaN where NaN can
arise, fallible code returns `Except`, and each embedded definition follows
its source function line by line.
-/

attribute [local semireducible] Rat.add Rat.sub Rat.mul Rat.inv Rat.ofScientific

deriving instance DecidableEq for Except

namespace Apromore

/-- Python float values that may be NaN: `none` is NaN. -/
abbrev PyFloat := Option ℚ

/-- Python whitespace (the `\s` class and `str.strip`'s default set). -/
def isSpaceChar (c : Char) : Bool :=
  c == ' ' || c == '\t' || c == '\n' || c == '\r' || c == '\x0b' || c == '\x0c'

/-- `pat` is a prefix of the first list. -/
def listStartsWith : List Char → List Char → Bool
  | _, [] => true
  | [], _ :: _ => false
  | h :: t, p :: ps => h == p && listStartsWith t ps

/-- `str.lower()` (ASCII). -/
def strLower (s : String) : String := String.mk (s.toList.map Char.toLower)

/-- `str.strip()`. -/
def pyStrip (s : String) : String :=
  String.mk (((s.toList.dropWhile isSpaceChar).reverse.dropWhile isSpaceChar).reverse)

/-- Lexicographic code-point comparison, Python's `<` on strings. -/
def charListLt : List Char → List Char → Bool
  | [], [] => false
  | [], _ :: _ => true
  | _ :: _, [] => false
  | a :: as', b :: bs => if a < b then true else if b < a then false else charListLt as' bs

/-- Python `a < b` on strings. -/
def strLt (a b : String) : Bool := charListLt a.toList b.toList

/-- Replace every occurrence of a non-empty pattern. -/
def listReplace : ℕ → List Char → List Char → List Char → List Char
  | 0, s, _, _ => s
  | fuel + 1, s, pat, rep =>
      match s with
      | [] => []
      | c :: t =>
          if !pat.isEmpty && listStartsWith s pat then
            rep ++ listReplace fuel (s.drop pat.length) pat rep
          else c :: listReplace fuel t pat rep

/-- `str.replace(pat, rep)`. -/
def strReplace (s pat rep : String) : String :=
  String.mk (listReplace s.toList.length s.toList pat.toList rep.toList)

/-- `sep.join(parts)`. -/
def joinSep (sep : String) : List String → String
  | [] => ""
  | [x] => x
  | x :: xs => x ++ sep ++ joinSep sep xs

/-- `a - b` with NaN propagation. -/
def pSub (a b : PyFloat) : PyFloat :=
  match a, b with
  | some x, some y => some (x - y)
  | _, _ => none

/-- `abs` with NaN propagation. -/
def pAbs (a : PyFloat) : PyFloat := a.map (fun x => |x|)

/-- `a / b` with NaN propagation (division by a non-NaN zero cannot occur at
the one call site, which guards with `!= 0`). -/
def pDiv (a b : PyFloat) : PyFloat :=
  match a, b with
  | some x, some y => some (x / y)
  | _, _ => none

/-- Python `a <= b` where `a` may be NaN: any comparison with NaN is False. -/
def pLe (a : PyFloat) (b : ℚ) : Bool :=
  match a with
  | some x => decide (x ≤ b)
  | none => false

/-- Python `a != 0` where `a` may be NaN: NaN `!= 0` is True. -/
def pNe0 (a : PyFloat) : Bool :=
  match a with
  | some x => decide (x ≠ 0)
  | none => true

/-- One dataframe cell.  `null` stands for a missing value (NaN/None),
`time` for an already-parsed timestamp measured in seconds. -/
inductive Cell
  | null
  | num (q : ℚ)
  | str (s : String)
  | time (t : ℚ)
deriving DecidableEq

/-- A dataframe: column names plus rows of cells aligned with the columns. -/
structure Table where
  cols : List String
  rows : List (List Cell)
deriving DecidableEq

/-- Substring test, the embedding of Python's `sub in s`. -/
def listContainsSeg (hay pat : List Char) : Bool :=
  match hay with
  | [] => pat.isEmpty
  | _ :: t => listStartsWith hay pat || listContainsSeg t pat

/-- Python `sub in s` on strings. -/
def strContains (s sub : String) : Bool := listContainsSeg s.toList sub.toList

/-- The cells of one column, `null` when the row is ragged; `[]` when the
column name is absent. -/
def Table.getCol (t : Table) (c : String) : List Cell :=
  match t.cols.findIdx? (fun x => x == c) with
  | some i => t.rows.map (fun r => r.getD i Cell.null)
  | none => []

/-- Last value bound to key `k` in an association list (a Python dict
comprehension keeps the last binding for a duplicated key). -/
def lookupLast (m : List (String × String)) (k : String) : Option String :=
  (m.filter (fun p => p.1 == k)).getLast?.map (fun p => p.2)

/-- Embedding of `metrics.find_column`: case-insensitive exact match first
(in candidate priority order), then the first column containing some
candidate as a substring. -/
def find_column (t : Table) (candidates : List String) : Option String :=
  let cols := t.cols.map (fun c => (strLower c, c))
  match candidates.findSome? (fun cand => lookupLast cols (strLower cand)) with
  | some c => some c
  | none =>
      t.cols.find? (fun c =>
        candidates.any (fun cand => strContains (strLower c) (strLower cand)))

/-- `pd.to_numeric(x, errors="coerce")` on one cell: numbers pass through,
everything else becomes NaN. -/
def coerceNum : Cell → Option ℚ
  | Cell.num q => some q
  | _ => none

/-- `pd.to_datetime(x, errors="coerce")` on one cell: parsed timestamps pass
through, raw integers are interpreted as epoch nanoseconds, everything else
becomes NaT. -/
def toDatetime : Cell → Option ℚ
  | Cell.time t => some t
  | Cell.num q => some (q / 1000000000)
  | _ => none

/-- Minimum of a list of rationals. -/
def listMinQ : List ℚ → Option ℚ
  | [] => none
  | x :: xs =>
      match listMinQ xs with
      | none => some x
      | some m => some (min x m)

/-- Maximum of a list of rationals. -/
def listMaxQ : List ℚ → Option ℚ
  | [] => none
  | x :: xs =>
      match listMaxQ xs with
      | none => some x
      | some m => some (max x m)

/-- Mean over the non-NaN entries (pandas `Series.mean`, `skipna=True`);
NaN when nothing remains. -/
def meanValid (xs : List (Option ℚ)) : Option ℚ :=
  let v := xs.filterMap id
  if v.length = 0 then none else some (v.sum / v.length)

/-- Insert into a `≤`-sorted rational list. -/
def insertSorted (x : ℚ) : List ℚ → List ℚ
  | [] => [x]
  | y :: ys => if y ≤ x then y :: insertSorted x ys else x :: y :: ys

/-- Sort a rational list ascending. -/
def sortQ (xs : List ℚ) : List ℚ := xs.foldl (fun acc x => insertSorted x acc) []

/-- Median over the non-NaN entries (pandas `Series.median`): middle element,
or the mean of the two middle elements; NaN when nothing remains. -/
def medianValid (xs : List (Option ℚ)) : Option ℚ :=
  let v := sortQ (xs.filterMap id)
  let n := v.length
  if n = 0 then none
  else if n % 2 = 1 then some (v.getD (n / 2) 0)
  else some ((v.getD (n / 2 - 1) 0 + v.getD (n / 2) 0) / 2)

/-- Max over the non-NaN entries (pandas `Series.max`). -/
def maxValid (xs : List (Option ℚ)) : Option ℚ := listMaxQ (xs.filterMap id)

/-- First-occurrence list of distinct cells (`Series.unique`, which keeps
nulls as values). -/
def uniqueCells (xs : List Cell) : List Cell :=
  xs.foldl (fun acc c => if acc.contains c then acc else acc ++ [c]) []

/-- Distinct non-null keys, the groups of `DataFrame.groupby` (which drops
null keys). -/
def groupKeys (xs : List Cell) : List Cell :=
  (uniqueCells xs).filter (fun c => c ≠ Cell.null)

/-- Elementwise `series == cell` used for row selection: comparisons against
null never match (NaN semantics). -/
def cellSelEq (c key : Cell) : Bool :=
  key ≠ Cell.null && c == key

/-- Count of distinct non-null values (`Series.nunique`). -/
def nunique (xs : List Cell) : ℕ :=
  (groupKeys xs).length

end Apromore

namespace Apromore

/-- Lead-time accumulation of `flow_efficiency` tier (a): for each distinct
case id, `max(parsed end) − min(parsed start)` in seconds, skipping cases
where all starts or all ends fail to parse. -/
def caseLeadTimes (caseCells startCells endCells : List Cell) : List ℚ :=
  (uniqueCells caseCells).filterMap (fun cid =>
    let sel := (caseCells.zip (startCells.zip endCells)).filter
      (fun p => cellSelEq p.1 cid)
    let starts := sel.filterMap (fun p => toDatetime p.2.1)
    let ends := sel.filterMap (fun p => toDatetime p.2.2)
    match listMinQ starts, listMaxQ ends with
    | some a, some b => some (b - a)
    | _, _ => none)

/-- Total work time of `flow_efficiency`: per-case groupby sum of the
coerced duration column, summed over groups — i.e. the sum of all non-NaN
durations on rows whose case key is non-null. -/
def totalWorkTime (caseCells durCells : List Cell) : ℚ :=
  ((caseCells.zip durCells).filter (fun p => p.1 ≠ Cell.null)).foldl
    (fun acc p => acc + (coerceNum p.2).getD 0) 0

/-- Embedding of `metrics.flow_efficiency` (the `dataset` argument of the
source is unused by its body and dropped).  Follows the source's tiers:
timestamp-based lead time, then the `work + 300·n` estimate, then `0.5`. -/
def flow_efficiency (t : Table) : ℚ :=
  if t.rows.length = 0 then 0
  else
    match find_column t ["duration_seconds", "duration", "task_duration", "elapsed"],
          find_column t ["case_id", "case", "id"] with
    | some dcol, some ccol =>
        let caseCells := t.getCol ccol
        let durCells := t.getCol dcol
        let work := totalWorkTime caseCells durCells
        let tierA :=
          match find_column t ["start_time", "start", "timestamp"],
                find_column t ["end_time", "end"] with
          | some scol, some ecol =>
              let leads := caseLeadTimes caseCells (t.getCol scol) (t.getCol ecol)
              if leads ≠ [] ∧ leads.sum > 0 then some (min 1 (work / leads.sum))
              else none
          | _, _ => none
        match tierA with
        | some r => r
        | none =>
            let est := work + t.rows.length * 300
            if est > 0 then min 1 (work / est) else 1/2
    | _, _ => 0

/-- Aging bucket counts returned by `case_aging_buckets`. -/
structure AgingBuckets where
  b0_7 : ℕ
  b8_14 : ℕ
  bOver14 : ℕ
deriving DecidableEq

/-- Minimum of a group's cells under pandas `groupby(...).min()`: nulls are
skipped; an all-null group yields NaN (`none`); cells of mixed kinds are
incomparable and raise (`Except.error`). -/
def minCellSkipna (cells : List Cell) : Except Unit (Option Cell) :=
  let v := cells.filter (fun c => c ≠ Cell.null)
  match v with
  | [] => Except.ok none
  | _ =>
    if v.all (fun c => match c with | Cell.time _ => true | _ => false) then
      Except.ok ((listMinQ (v.filterMap (fun c =>
        match c with | Cell.time t => some t | _ => none))).map Cell.time)
    else if v.all (fun c => match c with | Cell.str _ => true | _ => false) then
      Except.ok ((v.filterMap (fun c =>
        match c with | Cell.str s => some s | _ => none)).foldl
          (fun acc s =>
            match acc with
            | none => some s
            | some m => some (if strLt s m then s else m)) none |>.map Cell.str)
    else if v.all (fun c => match c with | Cell.num _ => true | _ => false) then
      Except.ok ((listMinQ (v.filterMap coerceNum)).map Cell.num)
    else Except.error ()

/-- Per-group minimum of the start column, one entry per distinct non-null
case key, parsed with `errors="coerce"`. -/
def caseStartMins (caseCells startCells : List Cell) :
    Except Unit (List (Option ℚ)) :=
  (groupKeys caseCells).mapM (fun cid => do
    let sel := (caseCells.zip startCells).filter (fun p => cellSelEq p.1 cid)
    let m ← minCellSkipna (sel.map (fun p => p.2))
    return m.bind toDatetime)

/-- Embedding of `metrics.case_aging_buckets`.  The anchor is the maximum
parsed timestamp of the start column; when nothing parses the source falls
back to the wall clock, which is observationally irrelevant because every
age is then NaN, so the embedding uses `0` there. -/
def case_aging_buckets (t : Table) : AgingBuckets :=
  if t.rows.length = 0 then ⟨0, 0, 0⟩
  else
    match find_column t ["case_id", "case", "id"],
          find_column t ["start_time", "start", "timestamp"] with
    | some ccol, some scol =>
        let caseCells := t.getCol ccol
        let startCells := t.getCol scol
        match caseStartMins caseCells startCells with
        | Except.error _ => ⟨0, 0, 0⟩
        | Except.ok mins =>
            let now := (listMaxQ (startCells.filterMap toDatetime)).getD 0
            let ages : List (Option ℚ) :=
              mins.map (fun m => m.map (fun s => (now - s) / 86400))
            ⟨ages.countP (fun a => match a with
                | some q => decide (q ≤ 7) | none => false),
             ages.countP (fun a => match a with
                | some q => decide (7 < q ∧ q ≤ 14) | none => false),
             ages.countP (fun a => match a with
                | some q => decide (14 < q) | none => false)⟩
    | _, _ => ⟨0, 0, 0⟩

/-- Embedding of `metrics.throughput_minutes`: mean of per-case summed
durations, seconds to minutes.  NaN (`none`) when every case key is null,
since the mean then ranges over no groups. -/
def throughput_minutes (t : Table) : PyFloat :=
  if t.rows.length = 0 then some 0
  else
    match find_column t ["duration_seconds", "duration", "task_duration", "elapsed"],
          find_column t ["case_id", "case", "id"] with
    | some dcol, some ccol =>
        let caseCells := t.getCol ccol
        let durCells := t.getCol dcol
        let keys := groupKeys caseCells
        let sums := keys.map (fun cid =>
          ((caseCells.zip durCells).filter (fun p => cellSelEq p.1 cid)).foldl
            (fun acc p => acc + (coerceNum p.2).getD 0) 0)
        match meanValid (sums.map some) with
        | none => none
        | some m => some (m / 60)
    | _, _ => some 0

/-- Three-way comparison of two cells under Python ordering: numbers,
strings and timestamps compare within their own kind, nulls sort last
(`na_position="last"`), and cross-kind comparisons raise. -/
def cellCmp : Cell → Cell → Except Unit Ordering
  | Cell.null, Cell.null => Except.ok Ordering.eq
  | Cell.null, _ => Except.ok Ordering.gt
  | _, Cell.null => Except.ok Ordering.lt
  | Cell.num a, Cell.num b => Except.ok (compare a b)
  | Cell.str a, Cell.str b => Except.ok (compare a b)
  | Cell.time a, Cell.time b => Except.ok (compare a b)
  | _, _ => Except.error ()

/-- Lexicographic comparison of sort keys. -/
def keyCmp : List Cell → List Cell → Except Unit Ordering
  | [], [] => Except.ok Ordering.eq
  | [], _ :: _ => Except.ok Ordering.lt
  | _ :: _, [] => Except.ok Ordering.gt
  | a :: as', b :: bs => do
      match ← cellCmp a b with
      | Ordering.eq => keyCmp as' bs
      | o => return o

/-- Stable insertion into a sorted list of keyed rows; equal keys keep the
earlier row first. -/
def insertRowSorted (x : List Cell × List Cell) :
    List (List Cell × List Cell) → Except Unit (List (List Cell × List Cell))
  | [] => Except.ok [x]
  | y :: ys => do
      match ← keyCmp y.1 x.1 with
      | Ordering.gt => return x :: y :: ys
      | _ => return y :: (← insertRowSorted x ys)

/-- Stable sort of keyed rows (`DataFrame.sort_values`); raises when some
pair of keys is incomparable. -/
def sortRows (xs : List (List Cell × List Cell)) :
    Except Unit (List (List Cell × List Cell)) :=
  xs.foldlM (fun acc x => insertRowSorted x acc) []

/-- Python `!=` between two cells: any comparison involving NaN is True. -/
def cellNe (a b : Cell) : Bool :=
  if a = Cell.null ∨ b = Cell.null then true else a ≠ b

/-- Adjacent-change count of `handoffs`. -/
def countTransitions : List Cell → ℕ
  | [] => 0
  | [_] => 0
  | a :: b :: rest => (if cellNe a b then 1 else 0) + countTransitions (b :: rest)

/-- Embedding of `metrics.handoffs`: rows sorted by case (and time when a
time column resolves), then the mean over distinct case values of the
user-change count; `0.0` if sorting raises or a column is missing. -/
def handoffs (t : Table) : ℚ :=
  if t.rows.length = 0 then 0
  else
    match find_column t ["case_id", "case", "id"],
          find_column t ["user", "resource", "agent_profile_id", "agent"] with
    | some ccol, some ucol =>
        let keyCols :=
          match find_column t ["start_time", "start", "timestamp"] with
          | some tcol => [ccol, tcol]
          | none => [ccol]
        let keyed := t.rows.map (fun r =>
          (keyCols.map (fun c =>
            match t.cols.findIdx? (fun x => x == c) with
            | some i => r.getD i Cell.null
            | none => Cell.null), r))
        match sortRows keyed with
        | Except.error _ => 0
        | Except.ok sorted =>
            let cIdx := (t.cols.findIdx? (fun x => x == ccol)).getD 0
            let uIdx := (t.cols.findIdx? (fun x => x == ucol)).getD 0
            let caseSeq := sorted.map (fun p => p.2.getD cIdx Cell.null)
            let counts := (uniqueCells caseSeq).map (fun cid =>
              countTransitions ((sorted.filter
                (fun p => cellSelEq (p.2.getD cIdx Cell.null) cid)).map
                  (fun p => p.2.getD uIdx Cell.null)))
            match counts with
            | [] => 0
            | _ => (counts.map (fun n => (n : ℚ))).sum / counts.length
    | _, _ => 0

/-- Decimal rendering of a rational whose denominator divides a power of
ten — the exact values Python float literals can take; `str()` prints the
shortest round-tripping decimal, which for such values is this expansion. -/
def decExp (q : ℚ) : String :=
  if q.den = 1 then toString q.num
  else
    match (List.range 80).find? (fun k => q.den ∣ 10 ^ k) with
    | some k =>
        let scaled := q.num.natAbs * 10 ^ k / q.den
        let s := toString scaled
        let s := if s.length < k + 1 then
          String.mk (List.replicate (k + 1 - s.length) '0') ++ s else s
        (if q.num < 0 then "-" else "") ++ s.dropRight k ++ "." ++ s.takeRight k
    | none => toString q.num ++ "/" ++ toString q.den

/-- Python `str()` of a cell value. -/
def pyStrCell : Cell → String
  | Cell.str s => s
  | Cell.num q => decExp q
  | Cell.time t => decExp t
  | Cell.null => "nan"

/-- Python truthiness of a cell value. -/
def cellTruthy : Cell → Bool
  | Cell.str s => s ≠ ""
  | Cell.num q => q ≠ 0
  | Cell.time _ => true
  | Cell.null => true

/-- First value of `Series.value_counts().index` — a non-null value of
maximal multiplicity, earliest first occurrence among ties; `none` when
every value is null (where the source raises `IndexError`). -/
def mostCommon (cells : List Cell) : Option Cell :=
  let v := cells.filter (fun c => c ≠ Cell.null)
  ((uniqueCells v).map (fun c => (c, v.count c))).foldl
    (fun best p =>
      match best with
      | none => some p
      | some b => if p.2 > b.2 then some p else best) none |>.map (fun p => p.1)

/-- A value stored in the `compute_panel_metrics` dict: a float (possibly
NaN), Python `None`, a string, or a nested object (dict). -/
inductive PyVal
  | vnone
  | num (pf : PyFloat)
  | vstr (s : String)
  | vobj
deriving DecidableEq

/-- Embedding of `metrics.compute_panel_metrics`: the fixed entries, then
duration statistics, activity statistics and user statistics when the
respective columns resolve.  `Except.error` models the uncaught
`IndexError` raised by `value_counts().index[0]` on a non-empty table whose
activity column is all-null. -/
def compute_panel_metrics (t : Table) (ds : String) :
    Except String (List (String × PyVal)) := do
  let base : List (String × PyVal) :=
    [("dataset", PyVal.vstr ds),
     ("filters", PyVal.vobj),
     ("case_count", PyVal.num (some t.rows.length)),
     ("flow_efficiency", PyVal.num (some (flow_efficiency t))),
     ("throughput_minutes", PyVal.num (throughput_minutes t)),
     ("handoffs", PyVal.num (some (handoffs t))),
     ("aging_buckets", PyVal.vobj)]
  let durPart : List (String × PyVal) :=
    match find_column t ["duration_seconds", "duration", "task_duration", "elapsed"] with
    | some dcol =>
        let durs := (t.getCol dcol).map coerceNum
        [("avg_duration_seconds", PyVal.num (meanValid durs)),
         ("median_duration_seconds", PyVal.num (medianValid durs)),
         ("max_duration_seconds", PyVal.num (maxValid durs))]
    | none => []
  let actPart ←
    match find_column t ["activity", "step", "original_activity"] with
    | some acol =>
        let cells := t.getCol acol
        let top ←
          if t.rows.length > 0 then
            match mostCommon cells with
            | some c => Except.ok (some c)
            | none => Except.error "index 0 is out of bounds for axis 0 with size 0"
          else Except.ok none
        Except.ok
          [("unique_activities", PyVal.num (some (nunique cells : ℚ))),
           ("most_common_activity",
            match top with
            | some c => if cellTruthy c then PyVal.vstr (pyStrCell c) else PyVal.vnone
            | none => PyVal.vnone)]
    | none => Except.ok []
  let userPart : List (String × PyVal) :=
    match find_column t ["user", "resource", "agent_profile_id", "agent"] with
    | some ucol => [("unique_users", PyVal.num (some (nunique (t.getCol ucol) : ℚ)))]
    | none => []
  return base ++ durPart ++ actPart ++ userPart

/-- Filter arguments of `filter_dataframe`, already normalized to lists the
way the source normalizes scalars (`x` becomes `[x]`).  `none` stands for an
absent or falsy entry; the `time_range` components are the dict's `start`
and `end` entries. -/
structure PyFilters where
  case_id : Option (List Cell)
  team : Option (List Cell)
  resource : Option (List Cell)
  time_range : Option (Option Cell × Option Cell)
deriving DecidableEq

/-- Keep the rows whose cell in column `col` satisfies `pred`. -/
def Table.filterRows (t : Table) (col : String) (pred : Cell → Bool) : Table :=
  match t.cols.findIdx? (fun x => x == col) with
  | some i => ⟨t.cols, t.rows.filter (fun r => pred (r.getD i Cell.null))⟩
  | none => t

/-- Embedding of `metrics.filter_dataframe`: case-id, team, resource and
time-range filters applied in order; each `find_column` call resolves
against the original frame, as in the source. -/
def filter_dataframe (t : Table) (f : PyFilters) : Table :=
  let t1 :=
    match f.case_id with
    | some vs@(_ :: _) =>
        match find_column t ["case_id", "case", "id"] with
        | some ccol => Table.filterRows t ccol (fun c => vs.contains c)
        | none => t
    | _ => t
  let t2 :=
    match f.team with
    | some vs@(_ :: _) =>
        match find_column t ["team", "teams"] with
        | some tcol => Table.filterRows t1 tcol (fun c => vs.contains c)
        | none => t1
    | _ => t1
  let t3 :=
    match f.resource with
    | some vs@(_ :: _) =>
        match find_column t ["user", "resource", "agent_profile_id", "agent"] with
        | some ucol => Table.filterRows t2 ucol (fun c => vs.contains c)
        | none => t2
    | _ => t2
  match f.time_range with
  | some tr =>
      match find_column t ["start_time", "start", "timestamp"] with
      | some scol =>
          let low := tr.1.bind toDatetime
          let high := tr.2.bind toDatetime
          let t4 :=
            match low with
            | some a => Table.filterRows t3 scol (fun c =>
                match toDatetime c with
                | some x => decide (a ≤ x)
                | none => false)
            | none => t3
          match high with
          | some b => Table.filterRows t4 scol (fun c =>
              match toDatetime c with
              | some x => decide (x ≤ b)
              | none => false)
          | none => t4
      | none => t3
  | none => t3

end Apromore

namespace Apromore

/-- One extracted numeric claim (`extract_numeric_claims` dict). -/
structure NumClaim where
  name : String
  slice : Option String
  value : ℚ
  units : String
  raw_text : String
  from_facts_block : Bool
deriving DecidableEq

/-- One entry of the list `recompute_metrics` returns. -/
structure VResult where
  name : String
  claimed : ℚ
  recomputed : Option PyFloat
  passV : Option Bool
  abs_err : Option PyFloat
  pct_err : Option PyFloat
  errorV : Option String
deriving DecidableEq

/-- The count-like-name test of `recompute_metrics` (lines 311-312). -/
def countLikeName (name : String) : Bool :=
  ["cases", "case_count", "users", "activities", "teams", "handoffs"].contains name
    || strContains name "count" || strContains name "aging"

/-- The comparison step of `recompute_metrics` (lines 298-325) for a numeric
recomputed value (possibly NaN). -/
def compareNum (tol : ℚ) (name : String) (claimed : ℚ) (pf : PyFloat) : VResult :=
  let absErr := pAbs (pSub (some claimed) pf)
  let pctErr :=
    if pNe0 pf then pDiv absErr (pAbs pf)
    else
      match absErr with
      | some a => if a > tol then some a else some 0
      | none => none
  let passes := if countLikeName name then pLe absErr 1 else pLe pctErr tol
  ⟨name, claimed, some pf, some passes, some absErr, some pctErr, none⟩

/-- The `else` result of `recompute_metrics` (lines 326-336) when the metric
could not be recomputed. -/
def notRecomputable (name : String) (claimed : ℚ) : VResult :=
  ⟨name, claimed, none, none, none, none, some "Metric not recomputable"⟩

/-- The `except` handler of `recompute_metrics` (lines 285-296). -/
def exceptionResult (name : String) (claimed : ℚ) (msg : String) : VResult :=
  ⟨name, claimed, none, some false, none, none, some msg⟩

/-- Leftmost `re.search` of `key([^,]+)`: the capture after the first
occurrence of `key` that is followed by at least one non-comma character. -/
def searchCap (key : List Char) : List Char → Option String
  | [] => none
  | s@(_ :: t) =>
      if listStartsWith s key then
        let cap := (s.drop key.length).takeWhile (fun c => c ≠ ',')
        if cap.isEmpty then searchCap key t else some (String.mk cap)
      else searchCap key t

/-- Slice-descriptor parsing of `recompute_metrics` (lines 204-217):
the `team=` and `resource=` captures, stripped. -/
def parseSliceFilters (sd : String) : Option (List Cell) × Option (List Cell) :=
  (if strContains sd "team=" then
     (searchCap "team=".toList sd.toList).map (fun v => [Cell.str (pyStrip v)])
   else none,
   if strContains sd "resource=" then
     (searchCap "resource=".toList sd.toList).map (fun v => [Cell.str (pyStrip v)])
   else none)

/-- The working table of one claim: the dataset slice, re-filtered when the
claim carries a non-empty slice descriptor with `team=`/`resource=` parts. -/
def workingTable (base : Table) (c : NumClaim) : Table :=
  match c.slice with
  | some sd =>
      if sd = "" then base
      else
        let f := parseSliceFilters sd
        if f.1.isSome ∨ f.2.isSome then
          filter_dataframe base ⟨none, f.1, f.2, none⟩
        else base
  | none => base

/-- The name-routing `elif` chain of `recompute_metrics` (lines 222-283)
plus the panel-metrics fallback; yields `vnone` when nothing routed. -/
def metricDispatch (w : Table) (panel : List (String × PyVal)) (c : NumClaim) :
    PyVal :=
  let name := c.name
  let core : PyVal :=
    if ["flow_efficiency", "flow efficiency"].contains name then
      PyVal.num (some (flow_efficiency w))
    else if ["handoffs", "handoff", "avg_handoffs"].contains name then
      PyVal.num (some (handoffs w))
    else if ["throughput_minutes", "throughput", "avg_throughput"].contains name then
      PyVal.num (throughput_minutes w)
    else if strContains name "aging" || strContains name "age" then
      let b := case_aging_buckets w
      if strContains c.raw_text ">14d" || strContains name "14d" then
        PyVal.num (some (b.bOver14 : ℚ))
      else if strContains c.raw_text "8-14" || strContains name "8_14" then
        PyVal.num (some (b.b8_14 : ℚ))
      else if strContains c.raw_text "0-7" || strContains name "0_7" then
        PyVal.num (some (b.b0_7 : ℚ))
      else PyVal.vnone
    else if ["cases", "case_count", "case count"].contains name then
      match find_column w ["case_id", "case", "id"] with
      | some ccol => PyVal.num (some (nunique (w.getCol ccol) : ℚ))
      | none => PyVal.num (some (w.rows.length : ℚ))
    else if strContains name "duration"
        || ["avg_duration", "mean_duration"].contains name then
      match find_column w ["duration_seconds", "duration", "task_duration"] with
      | some dcol =>
          let durs := (w.getCol dcol).map coerceNum
          if strContains name "avg" || strContains name "mean"
              || strContains name "average" then PyVal.num (meanValid durs)
          else if strContains name "median" then PyVal.num (medianValid durs)
          else if strContains name "max" || strContains name "maximum" then
            PyVal.num (maxValid durs)
          else PyVal.num (meanValid durs)
      | none => PyVal.vnone
    else if ["users", "user_count", "unique_users"].contains name then
      match find_column w ["user", "resource", "agent_profile_id"] with
      | some ucol => PyVal.num (some (nunique (w.getCol ucol) : ℚ))
      | none => PyVal.vnone
    else if ["activities", "activity_count", "unique_activities"].contains name then
      match find_column w ["activity", "step", "original_activity"] with
      | some acol => PyVal.num (some (nunique (w.getCol acol) : ℚ))
      | none => PyVal.vnone
    else if ["teams", "team_count", "unique_teams"].contains name then
      match find_column w ["team", "teams"] with
      | some tcol => PyVal.num (some (nunique (w.getCol tcol) : ℚ))
      | none => PyVal.vnone
    else PyVal.vnone
  match core with
  | PyVal.vnone =>
      match panel.find? (fun p => p.1 == name) with
      | some p => p.2
      | none => PyVal.vnone
  | v => v

/-- The `try` block around the dispatch.  The embedded metric functions are
total (the source's metric library catches its own exceptions), so the
dispatch itself never raises; the handler arm of `processClaim` embeds what
the source's `except` clause would record. -/
def dispatchTry (w : Table) (panel : List (String × PyVal)) (c : NumClaim) :
    Except String PyVal :=
  Except.ok (metricDispatch w panel c)

/-- One iteration of the claim loop of `recompute_metrics`: slice
re-filtering, dispatch, exception handler, then the comparison step.  A
non-numeric recomputed value (a string or dict from the panel fallback)
makes the comparison `claimed - recomputed` raise an uncaught `TypeError`,
modelled as `Except.error`. -/
def processClaim (base : Table) (panel : List (String × PyVal)) (tol : ℚ)
    (c : NumClaim) : Except String VResult :=
  match dispatchTry (workingTable base c) panel c with
  | Except.error msg => Except.ok (exceptionResult c.name c.value msg)
  | Except.ok v =>
      match v with
      | PyVal.vnone => Except.ok (notRecomputable c.name c.value)
      | PyVal.num pf => Except.ok (compareNum tol c.name c.value pf)
      | PyVal.vstr _ =>
          Except.error "unsupported operand type(s) for -: float and str"
      | PyVal.vobj =>
          Except.error "unsupported operand type(s) for -: float and dict"

/-- Embedding of `kpi_verifier.recompute_metrics`: the empty-slice early
return, the upfront panel computation, then one result per claim; an
uncaught exception anywhere aborts the whole call. -/
def recompute_metrics (claims : List NumClaim) (t : Table) (ds : String)
    (tol : ℚ) : Except String (List VResult) :=
  if t.rows.length = 0 then Except.ok []
  else do
    let panel ← compute_panel_metrics t ds
    claims.mapM (processClaim t panel tol)

end Apromore

namespace Apromore

/-- `\w` of the source's regexes (ASCII range). -/
def isWordChar (c : Char) : Bool := c.isAlphanum || c == '_'

/-- The `[\d.]` value class. -/
def isDigitDot (c : Char) : Bool := c.isDigit || c == '.'

/-- The `[%a-zA-Z]` units class. -/
def isUnitsChar (c : Char) : Bool := c == '%' || c.isAlpha

/-- The `[^"\',.!?\n]` slice-text class of pattern 2. -/
def isSliceChar (c : Char) : Bool :=
  !(c == '"' || c == '\'' || c == ',' || c == '.' || c == '!' || c == '?' || c == '\n')

/-- Case-insensitive literal prefix match. -/
def startsCI : List Char → List Char → Bool
  | _, [] => true
  | [], _ :: _ => false
  | h :: t, p :: ps => h.toLower == p.toLower && startsCI t ps

/-- Digits to a natural number. -/
def digitsToNat (l : List Char) : ℕ :=
  l.foldl (fun a c => a * 10 + (c.toNat - 48)) 0

/-- Python `float()` on a token drawn from `[\d.]+`: at least one digit and
at most one dot, otherwise `ValueError` (`none`). -/
def parseFloatTok (s : List Char) : Option ℚ :=
  if s.count '.' > 1 then none
  else if (s.filter Char.isDigit).isEmpty then none
  else
    let ip := s.takeWhile (fun c => c ≠ '.')
    let fp := (s.drop ip.length).drop 1
    some (digitsToNat ip + (digitsToNat fp : ℚ) / 10 ^ fp.length)

/-- `re.finditer` driver: try a match at each position, left to right,
resuming after the end of each match. -/
def scanAll {α : Type} (f : List Char → Option (α × List Char)) :
    ℕ → List Char → List (α × List Char)
  | 0, _ => []
  | _ + 1, [] => []
  | fuel + 1, s@(_ :: t) =>
      match f s with
      | some (a, rest) => (a, s.take (s.length - rest.length)) :: scanAll f fuel rest
      | none => scanAll f fuel t

/-- One attempt of pattern 1, `(\w+(?:_\w+)*)\s*[=:]\s*([\d.]+)\s*([%a-zA-Z]*)`:
captures (name, value, units). -/
def tryPat1 (s : List Char) :
    Option ((List Char × List Char × List Char) × List Char) :=
  let name := s.takeWhile isWordChar
  if name.isEmpty then none
  else
    match (s.drop name.length).dropWhile isSpaceChar with
    | c :: r3 =>
        if c == '=' || c == ':' then
          let r4 := r3.dropWhile isSpaceChar
          let value := r4.takeWhile isDigitDot
          if value.isEmpty then none
          else
            let r6 := (r4.drop value.length).dropWhile isSpaceChar
            let units := r6.takeWhile isUnitsChar
            some ((name, value, units), r6.drop units.length)
        else none
    | [] => none

/-- One attempt of pattern 2,
`([\d.]+)\s+(\w+)\s+(?:by|for|in)\s+(["\']?)([^"\',.!?\n]+)\3`:
captures (value, unit word, slice text). -/
def tryPat2 (s : List Char) :
    Option ((List Char × List Char × List Char) × List Char) :=
  let value := s.takeWhile isDigitDot
  if value.isEmpty then none
  else
    let r1 := s.drop value.length
    let ws1 := r1.takeWhile isSpaceChar
    if ws1.isEmpty then none
    else
      let r2 := r1.drop ws1.length
      let unit := r2.takeWhile isWordChar
      if unit.isEmpty then none
      else
        let r3 := r2.drop unit.length
        let ws2 := r3.takeWhile isSpaceChar
        if ws2.isEmpty then none
        else
          let r4 := r3.drop ws2.length
          let kwLen : Option ℕ :=
            if startsCI r4 ['b', 'y'] then some 2
            else if startsCI r4 ['f', 'o', 'r'] then some 3
            else if startsCI r4 ['i', 'n'] then some 2
            else none
          match kwLen with
          | none => none
          | some k =>
              let r5 := r4.drop k
              let ws3 := r5.takeWhile isSpaceChar
              if ws3.isEmpty then none
              else
                let r6 := r5.drop ws3.length
                match r6 with
                | q :: r7 =>
                    if q == '"' || q == '\'' then
                      let body := r7.takeWhile isSliceChar
                      if body.isEmpty then none
                      else
                        match r7.drop body.length with
                        | c :: r8 =>
                            if c == q then some ((value, unit, body), r8) else none
                        | [] => none
                    else
                      let body := r6.takeWhile isSliceChar
                      if body.isEmpty then none
                      else some ((value, unit, body), r6.drop body.length)
                | [] => none

/-- One attempt of pattern 3,
`(?:average|mean|median|avg)\s+(\w+(?:_\w+)*)\s+(?:is|of|=)\s*([\d.]+)\s*([%a-zA-Z]*)`:
captures (name, value, units).  The alternatives are pairwise incompatible
prefixes, so trying them in the source's order needs no further
backtracking. -/
def tryPat3 (s : List Char) :
    Option ((List Char × List Char × List Char) × List Char) :=
  let kwLen : Option ℕ :=
    if startsCI s "average".toList then some 7
    else if startsCI s "mean".toList then some 4
    else if startsCI s "median".toList then some 6
    else if startsCI s "avg".toList then some 3
    else none
  match kwLen with
  | none => none
  | some k =>
      let r1 := s.drop k
      let ws1 := r1.takeWhile isSpaceChar
      if ws1.isEmpty then none
      else
        let r2 := r1.drop ws1.length
        let name := r2.takeWhile isWordChar
        if name.isEmpty then none
        else
          let r3 := r2.drop name.length
          let ws2 := r3.takeWhile isSpaceChar
          if ws2.isEmpty then none
          else
            let r4 := r3.drop ws2.length
            let vLen : Option ℕ :=
              if startsCI r4 ['i', 's'] then some 2
              else if startsCI r4 ['o', 'f'] then some 2
              else if startsCI r4 ['='] then some 1
              else none
            match vLen with
            | none => none
            | some vk =>
                let r5 := (r4.drop vk).dropWhile isSpaceChar
                let value := r5.takeWhile isDigitDot
                if value.isEmpty then none
                else
                  let r6 := (r5.drop value.length).dropWhile isSpaceChar
                  let units := r6.takeWhile isUnitsChar
                  some ((name, value, units), r6.drop units.length)

/-- One attempt of pattern 4,
`([\d.]+)\s*(?:%|percent)\s+(?:of\s+)?(\w+(?:_\w+)*)`: captures
(value, name).  The optional `of\s+` is tried first and dropped when the
trailing name cannot then match, as regex backtracking would. -/
def tryPat4 (s : List Char) :
    Option ((List Char × List Char) × List Char) :=
  let value := s.takeWhile isDigitDot
  if value.isEmpty then none
  else
    let r1 := (s.drop value.length).dropWhile isSpaceChar
    let pLen : Option ℕ :=
      if startsCI r1 ['%'] then some 1
      else if startsCI r1 "percent".toList then some 7
      else none
    match pLen with
    | none => none
    | some k =>
        let r2 := r1.drop k
        let ws := r2.takeWhile isSpaceChar
        if ws.isEmpty then none
        else
          let r3 := r2.drop ws.length
          let withOf : Option (List Char × List Char) :=
            if startsCI r3 ['o', 'f'] then
              let r4 := r3.drop 2
              let ws2 := r4.takeWhile isSpaceChar
              if ws2.isEmpty then none
              else
                let nm := (r4.drop ws2.length).takeWhile isWordChar
                if nm.isEmpty then none
                else some (nm, (r4.drop ws2.length).drop nm.length)
            else none
          match withOf with
          | some (nm, rest) => some ((value, nm), rest)
          | none =>
              let nm := r3.takeWhile isWordChar
              if nm.isEmpty then none else some ((value, nm), r3.drop nm.length)

/-- Index of the last newline in a character list. -/
def lastNewlineIdx (l : List Char) : Option ℕ :=
  match l.reverse.findIdx? (fun c => c == '\n') with
  | some j => some (l.length - 1 - j)
  | none => none

/-- First index at which `pat` starts inside `s`. -/
def findSeg : List Char → List Char → Option ℕ
  | [], pat => if pat.isEmpty then some 0 else none
  | s@(_ :: t), pat =>
      if listStartsWith s pat then some 0 else (findSeg t pat).map (fun n => n + 1)

/-- One attempt of pattern 5's fenced facts-block regex (three backticks,
then `facts\s*\n`, then a lazy DOTALL body, then a newline and three
backticks): captures the body text. -/
def tryFacts (s : List Char) : Option (List Char × List Char) :=
  if startsCI s "```facts".toList then
    let r := s.drop 8
    let ws := r.takeWhile isSpaceChar
    match lastNewlineIdx ws with
    | none => none
    | some i =>
        let body0 := r.drop (i + 1)
        match findSeg body0 "\n```".toList with
        | some k => some (body0.take k, body0.drop (k + 4))
        | none => none
  else none

end Apromore

namespace Apromore

/-- JSON values as `json.loads` produces them. -/
inductive Json
  | jnull
  | jbool (b : Bool)
  | jnum (q : ℚ)
  | jstr (s : String)
  | jarr (xs : List Json)
  | jobj (kvs : List (String × Json))

/-- JSON inter-token whitespace. -/
def jskipWs (s : List Char) : List Char :=
  s.dropWhile (fun c => c == ' ' || c == '\t' || c == '\n' || c == '\r')

/-- Hex digit value. -/
def hexVal (c : Char) : Option ℕ :=
  if c.isDigit then some (c.toNat - 48)
  else if 'a' ≤ c ∧ c ≤ 'f' then some (c.toNat - 87)
  else if 'A' ≤ c ∧ c ≤ 'F' then some (c.toNat - 55)
  else none

/-- JSON string body after the opening quote: escapes decoded, raw control
characters rejected, stops at the closing quote. -/
def jstrChars : ℕ → List Char → Except String (List Char × List Char)
  | 0, _ => Except.error "depth"
  | _ + 1, [] => Except.error "unterminated string"
  | fuel + 1, c :: r =>
      if c == '"' then Except.ok ([], r)
      else if c == '\\' then
        match r with
        | [] => Except.error "bad escape"
        | e :: r2 =>
            let cont := fun (ch : Char) (rest : List Char) => do
              let (tl, rem) ← jstrChars fuel rest
              Except.ok (ch :: tl, rem)
            if e == '"' then cont '"' r2
            else if e == '\\' then cont '\\' r2
            else if e == '/' then cont '/' r2
            else if e == 'b' then cont '\x08' r2
            else if e == 'f' then cont '\x0c' r2
            else if e == 'n' then cont '\n' r2
            else if e == 'r' then cont '\r' r2
            else if e == 't' then cont '\t' r2
            else if e == 'u' then
              match r2 with
              | a :: b :: c2 :: d :: r3 =>
                  match hexVal a, hexVal b, hexVal c2, hexVal d with
                  | some x, some y, some z, some w =>
                      cont (Char.ofNat (((x * 16 + y) * 16 + z) * 16 + w)) r3
                  | _, _, _, _ => Except.error "bad unicode escape"
              | _ => Except.error "bad unicode escape"
            else Except.error "bad escape"
      else if c.toNat < 32 then Except.error "control character"
      else do
        let (tl, rem) ← jstrChars fuel r
        Except.ok (c :: tl, rem)

/-- JSON number: optional minus, integer part without leading zeros,
optional fraction and exponent. -/
def jparseNum (s : List Char) : Except String (ℚ × List Char) :=
  let (neg, r0) := match s with
    | '-' :: r => (true, r)
    | _ => (false, s)
  let ip := r0.takeWhile Char.isDigit
  if ip.isEmpty then Except.error "bad number"
  else if ip.length > 1 ∧ ip.headD '0' == '0' then Except.error "leading zero"
  else
    let r1 := r0.drop ip.length
    let (fp, r2) := match r1 with
      | '.' :: rf =>
          let d := rf.takeWhile Char.isDigit
          (d, rf.drop d.length)
      | _ => ([], r1)
    if r1 ≠ r2 ∧ fp.isEmpty then Except.error "bad fraction"
    else
      let (ex, r3) : ℤ × List Char := match r2 with
        | 'e' :: re | 'E' :: re =>
            let (esign, re2) : ℤ × List Char := match re with
              | '-' :: rr => (-1, rr)
              | '+' :: rr => (1, rr)
              | _ => (1, re)
            let ed := re2.takeWhile Char.isDigit
            if ed.isEmpty then (0, r2) else (esign * (digitsToNat ed : ℤ), re2.drop ed.length)
        | _ => (0, r2)
    let base : ℚ := digitsToNat ip + (digitsToNat fp : ℚ) / 10 ^ fp.length
    let scaled : ℚ := if ex ≥ 0 then base * 10 ^ ex.toNat else base / 10 ^ (-ex).toNat
    Except.ok ((if neg then -scaled else scaled), r3)

/-- Replace the value of an existing key (keeping its position, as Python
dicts do) or append a new binding. -/
def objInsert : List (String × Json) → String → Json → List (String × Json)
  | [], k, v => [(k, v)]
  | (k0, v0) :: t, k, v =>
      if k0 == k then (k0, v) :: t else (k0, v0) :: objInsert t k v

mutual

/-- Strict JSON value parser with fuel. -/
def jparseVal : ℕ → List Char → Except String (Json × List Char)
  | 0, _ => Except.error "depth"
  | fuel + 1, s =>
      match jskipWs s with
      | [] => Except.error "unexpected end"
      | c :: r =>
          if c == '\x7b' then
            match jskipWs r with
            | '\x7d' :: r2 => Except.ok (Json.jobj [], r2)
            | r2 => jparseMembers fuel r2 []
          else if c == '[' then
            match jskipWs r with
            | ']' :: r2 => Except.ok (Json.jarr [], r2)
            | r2 => jparseItems fuel r2 []
          else if c == '"' then do
            let (cs, r2) ← jstrChars fuel r
            Except.ok (Json.jstr (String.mk cs), r2)
          else if listStartsWith (c :: r) "true".toList then
            Except.ok (Json.jbool true, (c :: r).drop 4)
          else if listStartsWith (c :: r) "false".toList then
            Except.ok (Json.jbool false, (c :: r).drop 5)
          else if listStartsWith (c :: r) "null".toList then
            Except.ok (Json.jnull, (c :: r).drop 4)
          else if c == '-' || c.isDigit then do
            let (q, r2) ← jparseNum (c :: r)
            Except.ok (Json.jnum q, r2)
          else Except.error "unexpected character"

/-- Object members after the opening brace (at least one member). -/
def jparseMembers : ℕ → List Char → List (String × Json) →
    Except String (Json × List Char)
  | 0, _, _ => Except.error "depth"
  | fuel + 1, s, acc =>
      match jskipWs s with
      | '"' :: r => do
          let (k, r2) ← jstrChars fuel r
          match jskipWs r2 with
          | ':' :: r3 => do
              let (v, r4) ← jparseVal fuel r3
              let acc2 := objInsert acc (String.mk k) v
              match jskipWs r4 with
              | ',' :: r5 => jparseMembers fuel r5 acc2
              | '\x7d' :: r5 => Except.ok (Json.jobj acc2, r5)
              | _ => Except.error "bad object"
          | _ => Except.error "expected colon"
      | _ => Except.error "expected key"

/-- Array items after the opening bracket (at least one item). -/
def jparseItems : ℕ → List Char → List Json → Except String (Json × List Char)
  | 0, _, _ => Except.error "depth"
  | fuel + 1, s, acc => do
      let (v, r) ← jparseVal fuel s
      match jskipWs r with
      | ',' :: r2 => jparseItems fuel r2 (acc ++ [v])
      | ']' :: r2 => Except.ok (Json.jarr (acc ++ [v]), r2)
      | _ => Except.error "bad array"

end

/-- `json.loads` (strict mode: the NaN/Infinity extensions are rejected). -/
def parseJson (s : String) : Except String Json := do
  let cs := s.toList
  let (v, rest) ← jparseVal (cs.length + 2) cs
  if (jskipWs rest).isEmpty then Except.ok v else Except.error "extra data"

/-- Python truthiness of a JSON value. -/
def jTruthy : Json → Bool
  | Json.jnull => false
  | Json.jbool b => b
  | Json.jnum q => q != 0
  | Json.jstr s => s != ""
  | Json.jarr xs => !xs.isEmpty
  | Json.jobj kvs => !kvs.isEmpty

/-- Dict lookup on parsed JSON object bindings. -/
def jget (kvs : List (String × Json)) (k : String) : Option Json :=
  (kvs.find? (fun p => p.1 == k)).map (fun p => p.2)

/-- Python `k in v`: key membership for dicts, element membership for
lists, substring for strings, `TypeError` otherwise. -/
def jHasKeyE (j : Json) (k : String) : Except String Bool :=
  match j with
  | Json.jobj kvs => Except.ok (kvs.any (fun p => p.1 == k))
  | Json.jarr xs =>
      Except.ok (xs.any (fun x => match x with
        | Json.jstr s => s == k
        | _ => false))
  | Json.jstr s => Except.ok (strContains s k)
  | _ => Except.error "argument of type is not iterable"

/-- Python `v[k]` with a string key: dict lookup, `TypeError` for lists and
strings and scalars. -/
def jIndexE (j : Json) (k : String) : Except String Json :=
  match j with
  | Json.jobj kvs =>
      match jget kvs k with
      | some v => Except.ok v
      | none => Except.error "KeyError"
  | Json.jarr _ => Except.error "list indices must be integers"
  | Json.jstr _ => Except.error "string indices must be integers"
  | _ => Except.error "object is not subscriptable"

/-- Python `str()` / f-string rendering of a JSON value (containers are
abbreviated; only scalar renderings are relied on). -/
def pyJStr : Json → String
  | Json.jstr s => s
  | Json.jnum q => decExp q
  | Json.jbool b => if b then "True" else "False"
  | Json.jnull => "None"
  | Json.jarr _ => "[...]"
  | Json.jobj _ => "dict"

/-- Claims of one facts block (`extract_numeric_claims` lines 128-156):
a JSON parse failure silently yields no claims (the `except` clause), a
`metrics` map yields one claim per numeric or boolean entry with the slice
built from the `team`/`resource` filters; `TypeError`/`AttributeError`
raised on ill-typed data propagates uncaught. -/
def factsBlockClaims (body : String) : Except String (List NumClaim) :=
  match parseJson body with
  | Except.error _ => Except.ok []
  | Except.ok data => do
      let hasMetrics ←
        match data with
        | Json.jobj kvs => Except.ok (kvs.any (fun p => p.1 == "metrics"))
        | Json.jarr xs =>
            Except.ok (xs.any (fun x => match x with
              | Json.jstr s => s == "metrics"
              | _ => false))
        | Json.jstr s => Except.ok (strContains s "metrics")
        | _ => Except.error "argument of type is not iterable"
      if !hasMetrics then Except.ok []
      else
        match data with
        | Json.jobj kvs => do
            let filters := (jget kvs "filters").getD (Json.jobj [])
            let sliceDesc ←
              if jTruthy filters then do
                let teamIn ← jHasKeyE filters "team"
                let teamPart ←
                  if teamIn then do
                    let v ← jIndexE filters "team"
                    Except.ok ["team=" ++ pyJStr v]
                  else Except.ok []
                let resIn ← jHasKeyE filters "resource"
                let resPart ←
                  if resIn then do
                    let v ← jIndexE filters "resource"
                    Except.ok ["resource=" ++ pyJStr v]
                  else Except.ok []
                let parts := teamPart ++ resPart
                Except.ok (if parts.isEmpty then none
                  else some (joinSep ", " parts))
              else Except.ok (none : Option String)
            let items ←
              match (jget kvs "metrics").getD Json.jnull with
              | Json.jobj ms => Except.ok ms
              | _ => Except.error "object has no attribute items"
            Except.ok (items.filterMap (fun p =>
              match p.2 with
              | Json.jnum q =>
                  some ⟨p.1, sliceDesc, q, "", p.1 ++ "=" ++ decExp q, true⟩
              | Json.jbool b =>
                  some ⟨p.1, sliceDesc, if b then 1 else 0, "",
                        p.1 ++ "=" ++ (if b then "True" else "False"), true⟩
              | _ => none))
        | _ => Except.error "object has no attribute get"

/-- Pattern 1 claims: `name = value` / `name: value`. -/
def pattern1Claims (text : String) : List NumClaim :=
  let cs := text.toList
  (scanAll tryPat1 cs.length cs).filterMap (fun m =>
    (parseFloatTok m.1.2.1).map (fun v =>
      ⟨strLower (String.mk m.1.1), none, v, String.mk m.1.2.2, String.mk m.2, false⟩))

/-- Pattern 2 claims: `value unit (by|for|in) slice`; the lowered unit word
is both the name and the units. -/
def pattern2Claims (text : String) : List NumClaim :=
  let cs := text.toList
  (scanAll tryPat2 cs.length cs).filterMap (fun m =>
    (parseFloatTok m.1.1).map (fun v =>
      let nm := strLower (String.mk m.1.2.1)
      ⟨nm, some (pyStrip (String.mk m.1.2.2)), v, nm, String.mk m.2, false⟩))

/-- Pattern 3 claims: `average/mean/median/avg name is value`, with the
name prefixed `avg_`. -/
def pattern3Claims (text : String) : List NumClaim :=
  let cs := text.toList
  (scanAll tryPat3 cs.length cs).filterMap (fun m =>
    (parseFloatTok m.1.2.1).map (fun v =>
      ⟨"avg_" ++ strLower (String.mk m.1.1), none, v, String.mk m.1.2.2,
       String.mk m.2, false⟩))

/-- Pattern 4 claims: `value % [of] name`, value divided by 100. -/
def pattern4Claims (text : String) : List NumClaim :=
  let cs := text.toList
  (scanAll tryPat4 cs.length cs).filterMap (fun m =>
    (parseFloatTok m.1.1).map (fun v =>
      ⟨strLower (String.mk m.1.2), none, v / 100, "%", String.mk m.2, false⟩))

/-- Pattern 5 claims: every facts fenced block, in order. -/
def factsClaims (text : String) : Except String (List NumClaim) := do
  let cs := text.toList
  let blocks := scanAll tryFacts cs.length cs
  let ls ← blocks.mapM (fun b => factsBlockClaims (String.mk b.1))
  Except.ok ls.flatten

/-- All raw claims in extraction order: patterns 1-4, then the facts
blocks, exactly as the source appends them. -/
def rawClaims (text : String) : Except String (List NumClaim) := do
  let f ← factsClaims text
  Except.ok (pattern1Claims text ++ pattern2Claims text ++ pattern3Claims text
    ++ pattern4Claims text ++ f)

/-- The dedup key `(name, slice, value)`. -/
def claimKey (c : NumClaim) : String × Option String × ℚ :=
  (c.name, c.slice, c.value)

/-- The dedup loop of `extract_numeric_claims` (lines 158-168): keep the
first occurrence of each key. -/
def dedupClaims : List NumClaim → List (String × Option String × ℚ) →
    List NumClaim
  | [], _ => []
  | c :: cs, seen =>
      if claimKey c ∈ seen then dedupClaims cs seen
      else c :: dedupClaims cs (claimKey c :: seen)

/-- Embedding of `kpi_verifier.extract_numeric_claims`: the five pattern
strategies concatenated, then deduplicated. -/
def extract_numeric_claims (text : String) : Except String (List NumClaim) := do
  let raw ← rawClaims text
  Except.ok (dedupClaims raw [])

end Apromore

namespace Apromore

/-- Numeric column dtype test (`pd.api.types.is_numeric_dtype`): every cell
is a number or a missing value. -/
def isNumericDtype (cells : List Cell) : Bool :=
  cells.all (fun c => match c with
    | Cell.num _ => true
    | Cell.null => true
    | _ => false)

/-- The table after `df[col] = pd.to_numeric(df[col], errors="coerce")`. -/
def coerceDurCol (t : Table) (col : String) : Table :=
  match t.cols.findIdx? (fun x => x == col) with
  | some i =>
      ⟨t.cols, t.rows.map (fun r =>
        r.mapIdx (fun j c =>
          if j = i then
            match coerceNum c with
            | some q => Cell.num q
            | none => Cell.null
          else c))⟩
  | none => t

/-- A local dataframe variable: whether it is still bound to the caller's
input object, and the table value of the object it is bound to. -/
structure LocalFrame where
  isInput : Bool
  tbl : Table

/-- An item assignment through a local dataframe variable: the write lands
on the object the local is bound to, so the caller's input changes exactly
when the local is still bound to it. -/
def lfWrite (input : Table) (lf : LocalFrame) (t' : Table) : Table × LocalFrame :=
  (if lf.isInput then t' else input, ⟨lf.isInput, t'⟩)

/-- Write skeleton of `flow_efficiency`: final state of the caller's input
object.  The only write in the source is the duration coercion, performed
after `case_df = case_df.copy()` rebinds the local to a fresh object; the
rest of the body only reads. -/
def flow_efficiency_frame (t : Table) : Table :=
  if t.rows.length = 0 then t
  else
    match find_column t ["duration_seconds", "duration", "task_duration", "elapsed"],
          find_column t ["case_id", "case", "id"] with
    | some dcol, some _ =>
        if !(isNumericDtype (t.getCol dcol)) then
          let lf : LocalFrame := ⟨false, t⟩
          (lfWrite t lf (coerceDurCol lf.tbl dcol)).1
        else t
    | _, _ => t

/-- Write skeleton of `throughput_minutes`: same copy-then-coerce shape as
`flow_efficiency`. -/
def throughput_minutes_frame (t : Table) : Table :=
  if t.rows.length = 0 then t
  else
    match find_column t ["duration_seconds", "duration", "task_duration", "elapsed"],
          find_column t ["case_id", "case", "id"] with
    | some dcol, some _ =>
        if !(isNumericDtype (t.getCol dcol)) then
          let lf : LocalFrame := ⟨false, t⟩
          (lfWrite t lf (coerceDurCol lf.tbl dcol)).1
        else t
    | _, _ => t

/-- Write skeleton of `compute_panel_metrics`: the metric-library calls it
makes on the input object (of which only `flow_efficiency` and
`throughput_minutes` contain writes; `handoffs` and `case_aging_buckets`
only read), then its own copy-then-coerce duration block. -/
def compute_panel_metrics_frame (t : Table) : Table :=
  let t1 := flow_efficiency_frame t
  let t2 := throughput_minutes_frame t1
  match find_column t2 ["duration_seconds", "duration", "task_duration", "elapsed"] with
  | some dcol =>
      if !(isNumericDtype (t2.getCol dcol)) then
        let lf : LocalFrame := ⟨false, t2⟩
        (lfWrite t2 lf (coerceDurCol lf.tbl dcol)).1
      else t2
  | none => t2

/-- Write skeleton of `filter_dataframe`: `filtered_df = df.copy()` rebinds
the local to a fresh object immediately, and every subsequent step rebinds
it to a new boolean-mask selection; the source contains no item assignment
at all, so the input object is never written. -/
def filter_dataframe_frame (t : Table) (f : PyFilters) : Table :=
  let lf : LocalFrame := ⟨false, filter_dataframe t f⟩
  if lf.isInput then lf.tbl else t

/-- One entry of a trace's `verification_results`. -/
structure VerifResultRec where
  name : Option String
  pct_err : Option ℚ
deriving DecidableEq

/-- One entry of a trace's `all_claims`. -/
structure ClaimRec where
  name : Option String
  value : Option ℚ
deriving DecidableEq

/-- The `extracted_metrics` object of one trace record. -/
structure ExtractedMetrics where
  has_numeric_claims : Bool
  grounded_accuracy_pass : Option Bool
  verification_results : List VerifResultRec
  hallucination_has : Bool
  all_claims : List ClaimRec
deriving DecidableEq

/-- One JSONL trace record with the fields the rollup reads; `none` models
an absent (or null) field. -/
structure TraceRecord where
  session_id : Option String
  timestamp_utc : Option String
  endpoint : Option String
  router_correct : Option Bool
  latency_ms_total : Option ℚ
  latency_ms_model : Option ℚ
  user_id : Option String
  resolved : Bool
  extracted_metrics : Option ExtractedMetrics
deriving DecidableEq

/-- Append `v` to the list bound to `k`, creating the binding at the end on
first sight — a `defaultdict(list)` in insertion order. -/
def pushAssoc {β : Type} (m : List (String × List β)) (k : String) (v : β) :
    List (String × List β) :=
  match m with
  | [] => [(k, [v])]
  | (k0, vs) :: t =>
      if k0 == k then (k0, vs ++ [v]) :: t else (k0, vs) :: pushAssoc t k v

/-- `compute_grounded_accuracy_rate`: passed turns over turns with numeric
claims and a non-null pass flag. -/
def compute_grounded_accuracy_rate (traces : List TraceRecord) : Option ℚ :=
  let xs := traces.filterMap (fun tr =>
    tr.extracted_metrics.bind (fun em =>
      if em.has_numeric_claims then
        em.grounded_accuracy_pass.map (fun b => if b then (1 : ℕ) else 0)
      else none))
  if xs.length = 0 then none else some ((xs.sum : ℚ) / xs.length)

/-- `compute_routing_accuracy`: correct routes over routed turns. -/
def compute_routing_accuracy (traces : List TraceRecord) : Option ℚ :=
  let xs := traces.filterMap (fun tr =>
    tr.router_correct.map (fun b => if b then (1 : ℕ) else 0))
  if xs.length = 0 then none else some ((xs.sum : ℚ) / xs.length)

/-- Metric-name normalization of `compute_metric_parity_mape`. -/
def normName (s : String) : String :=
  strReplace (strReplace (strLower s) "_" "") " " ""

/-- `compute_metric_parity_mape`: per-panel-metric mean of percentage
errors whose normalized name fuzzily matches (substring containment either
way, first panel hit wins), plus the overall mean. -/
def compute_metric_parity_mape (traces : List TraceRecord) :
    List (String × ℚ) :=
  let panel := ["flow_efficiency", "handoffs", "throughput_minutes",
                "aging_>14d", "case_count"]
  let errs := traces.foldl (fun m tr =>
    match tr.extracted_metrics with
    | none => m
    | some em =>
        em.verification_results.foldl (fun m r =>
          match r.name, r.pct_err with
          | some n, some p =>
              if n ≠ "" then
                let nn := normName n
                match panel.find? (fun pm =>
                    strContains nn (normName pm) || strContains (normName pm) nn) with
                | some pm => pushAssoc m pm p
                | none => m
              else m
          | _, _ => m) m) ([] : List (String × List ℚ))
  let perMetric := errs.filterMap (fun p =>
    if p.2.isEmpty then none else some (p.1, p.2.sum / p.2.length))
  let allErrs := (errs.map (fun p => p.2)).flatten
  perMetric ++ (if allErrs.isEmpty then []
    else [("overall", allErrs.sum / allErrs.length)])

/-- `compute_hallucination_rate`: flagged answers over answers on the two
answer-producing endpoints. -/
def compute_hallucination_rate (traces : List TraceRecord) : Option ℚ :=
  let answers := traces.filter (fun tr =>
    match tr.endpoint with
    | some e => ["/api/analyze", "/api/agent"].contains e
    | none => false)
  if answers.length = 0 then none
  else
    some (((answers.filter (fun tr =>
      match tr.extracted_metrics with
      | some em => em.hallucination_has
      | none => false)).length : ℚ) / answers.length)

/-- The per-session claim entries of `compute_contradiction_rate`: one
`(timestamp, claims)` pair per trace with numeric claims, keyed by session
id (default `"default"`). -/
def claimEntries (traces : List TraceRecord) :
    List (String × (String × List ClaimRec)) :=
  traces.filterMap (fun tr =>
    tr.extracted_metrics.bind (fun em =>
      if em.has_numeric_claims then
        some (tr.session_id.getD "default",
              (tr.timestamp_utc.getD "", em.all_claims))
      else none))

/-- Group keyed entries preserving first-occurrence key order. -/
def groupPairs {β : Type} (xs : List (String × β)) : List (String × List β) :=
  xs.foldl (fun m p => pushAssoc m p.1 p.2) []

/-- Stable insertion of a timestamped item into a sorted list (equal
timestamps keep the earlier item first, like Python's stable sort). -/
def insertByTs {β : Type} (x : String × β) :
    List (String × β) → List (String × β)
  | [] => [x]
  | y :: ys => if strLt x.1 y.1 then x :: y :: ys else y :: insertByTs x ys

/-- Stable sort by timestamp string. -/
def sortByTs {β : Type} (xs : List (String × β)) : List (String × β) :=
  xs.foldl (fun acc x => insertByTs x acc) []

/-- The per-metric value history of one session: claim values appended in
trace order, for claims with a truthy name and a non-null value. -/
def metricHistory (claims : List ClaimRec) : List (String × List ℚ) :=
  claims.foldl (fun m c =>
    match c.name, c.value with
    | some n, some v => if n ≠ "" then pushAssoc m n v else m
    | _, _ => m) []

/-- The consecutive-pair scan of `compute_contradiction_rate`: some
adjacent pair of values for one metric with a non-zero earlier value whose
relative change exceeds 10%. -/
def consecContra (vs : List ℚ) : Bool :=
  (vs.zip vs.tail).any (fun p =>
    decide (p.1 ≠ 0) && decide (|p.2 - p.1| / |p.1| > 1 / 10))

/-- Whether one session (its timestamped traces) has a contradiction. -/
def sessionHasContradiction (straces : List (String × List ClaimRec)) : Bool :=
  let sorted := sortByTs straces
  let hist := metricHistory (sorted.map (fun p => p.2)).flatten
  hist.any (fun p => consecContra p.2)

/-- Embedding of `kpi_rollup.compute_contradiction_rate`. -/
def compute_contradiction_rate (traces : List TraceRecord) : Option ℚ :=
  let sessions := groupPairs (claimEntries traces)
  if sessions.isEmpty then none
  else
    some (((sessions.filter (fun s => sessionHasContradiction s.2)).length : ℚ)
      / sessions.length)

/-- `np.percentile(xs, q)` with linear interpolation, on a non-empty list. -/
def percentileQ (xs : List ℚ) (q : ℚ) : ℚ :=
  let s := sortQ xs
  let n := s.length
  let pos := (n - 1 : ℚ) * q / 100
  let i := pos.floor.toNat
  let frac := pos - i
  if i + 1 < n then s.getD i 0 + frac * (s.getD (i + 1) 0 - s.getD i 0)
  else s.getD i 0

/-- `compute_latency_percentiles`, overall (`none`) or for one endpoint. -/
def compute_latency_percentiles (traces : List TraceRecord)
    (endpoint : Option String) : List (String × ℚ) :=
  let sel := traces.filter (fun tr =>
    match endpoint with
    | some e => tr.endpoint == some e
    | none => true)
  let totals := sel.filterMap (fun tr => tr.latency_ms_total)
  let models := sel.filterMap (fun tr => tr.latency_ms_model)
  (if totals.isEmpty then []
   else [("p50_total", percentileQ totals 50), ("p95_total", percentileQ totals 95),
         ("mean_total", totals.sum / totals.length)]) ++
  (if models.isEmpty then []
   else [("p50_model", percentileQ models 50), ("p95_model", percentileQ models 95),
         ("mean_model", models.sum / models.length)])

/-- First-occurrence list of distinct strings. -/
def uniqueStrs (xs : List String) : List String :=
  xs.foldl (fun acc s => if acc.contains s then acc else acc ++ [s]) []

/-- The adoption block of the KPI panel. -/
structure AdoptionMetrics where
  wau : ℕ
  sessions_count : ℕ
  queries_per_session : ℚ
  total_queries : ℕ
deriving DecidableEq

/-- `compute_adoption_metrics`: distinct users (session id as fallback),
distinct sessions, mean queries per session, total records. -/
def compute_adoption_metrics (traces : List TraceRecord) : AdoptionMetrics :=
  let sids := traces.map (fun tr => tr.session_id.getD "anonymous")
  let uids := traces.map (fun tr =>
    tr.user_id.getD (tr.session_id.getD "anonymous"))
  let bySession := groupPairs (sids.map (fun s => (s, ())))
  let qps : ℚ :=
    if bySession.isEmpty then 0
    else ((bySession.map (fun p => p.2.length)).sum : ℚ) / bySession.length
  ⟨(uniqueStrs uids).length, (uniqueStrs sids).length, qps, traces.length⟩

/-- The resolution block of the KPI panel. -/
structure ResolutionMetrics where
  sessions_resolved_rate : Option ℚ
  turns_to_resolution_p50 : Option ℚ
deriving DecidableEq

/-- 1-based index of the first `true`. -/
def firstTrueIdx (l : List Bool) : Option ℕ :=
  (l.findIdx? id).map (fun i => i + 1)

/-- `compute_resolution_metrics`: sessions with any resolved record over
all sessions; p50 of per-session turns to the first resolved record. -/
def compute_resolution_metrics (traces : List TraceRecord) : ResolutionMetrics :=
  let sessions := groupPairs (traces.map (fun tr =>
    (tr.session_id.getD "default", tr.resolved)))
  if sessions.isEmpty then ⟨none, none⟩
  else
    let turns := sessions.filterMap (fun s => firstTrueIdx s.2)
    ⟨some (((sessions.filter (fun s => s.2.any id)).length : ℚ) / sessions.length),
     if turns.isEmpty then none
     else some (percentileQ (turns.map (fun n => (n : ℚ))) 50)⟩

/-- The assembled KPI panel of `rollup`'s non-empty branch. -/
structure KpiPanel where
  grounded_accuracy_rate : Option ℚ
  routing_accuracy : Option ℚ
  metric_parity_mape : List (String × ℚ)
  hallucination_rate : Option ℚ
  contradiction_rate : Option ℚ
  latency_overall : List (String × ℚ)
  latency_by_endpoint : List (String × List (String × ℚ))
  adoption : AdoptionMetrics
  resolution : ResolutionMetrics
deriving DecidableEq

/-- The result dict of `rollup`: date, trace count, optional error string,
and the KPI panel when traces existed. -/
structure RollupResult where
  date : String
  trace_count : ℕ
  errorR : Option String
  kpis : Option KpiPanel
deriving DecidableEq

/-- Index of the last occurrence of `c`. -/
def lastIdxOf (c : Char) (l : List Char) : Option ℕ :=
  match l.reverse.findIdx? (fun x => x == c) with
  | some j => some (l.length - 1 - j)
  | none => none

/-- `Path.stem`: the final path component without its last suffix. -/
def pathStem (p : String) : String :=
  let name := ((p.toList.reverse.takeWhile (fun c => c ≠ '/')).reverse)
  match lastIdxOf '.' name with
  | some i => if i > 0 then String.mk (name.take i) else String.mk name
  | none => String.mk name

/-- The `date` field of `rollup`: the stem with `traces-` removed. -/
def dateOf (p : String) : String := strReplace (pathStem p) "traces-" ""

/-- Field readers over parsed JSON trace lines. -/
def jStrField (kvs : List (String × Json)) (k : String) : Option String :=
  match jget kvs k with
  | some (Json.jstr s) => some s
  | _ => none

/-- Truthy-or-null reader (`get` then `is not None` then truthiness). -/
def jBoolField (kvs : List (String × Json)) (k : String) : Option Bool :=
  match jget kvs k with
  | none => none
  | some Json.jnull => none
  | some v => some (jTruthy v)

/-- Numeric field reader. -/
def jNumField (kvs : List (String × Json)) (k : String) : Option ℚ :=
  match jget kvs k with
  | some (Json.jnum q) => some q
  | _ => none

/-- The typed view of one parsed trace line used by the KPI computations
(non-object lines and ill-typed fields read as absent). -/
def toTraceRecord (j : Json) : TraceRecord :=
  match j with
  | Json.jobj kvs =>
      let em :=
        match jget kvs "extracted_metrics" with
        | some (Json.jobj ekvs) =>
            if ekvs.isEmpty then none
            else
              some (ExtractedMetrics.mk
                (jTruthy ((jget ekvs "has_numeric_claims").getD Json.jnull))
                (jBoolField ekvs "grounded_accuracy_pass")
                (match jget ekvs "verification_results" with
                 | some (Json.jarr items) =>
                     items.map (fun it =>
                       match it with
                       | Json.jobj rkvs =>
                           ⟨jStrField rkvs "name", jNumField rkvs "pct_err"⟩
                       | _ => ⟨none, none⟩)
                 | _ => [])
                (match jget ekvs "hallucination_check" with
                 | some (Json.jobj hkvs) =>
                     jTruthy ((jget hkvs "has_hallucinations").getD Json.jnull)
                 | _ => false)
                (match jget ekvs "all_claims" with
                 | some (Json.jarr items) =>
                     items.map (fun it =>
                       match it with
                       | Json.jobj ckvs =>
                           ⟨jStrField ckvs "name", jNumField ckvs "value"⟩
                       | _ => ⟨none, none⟩)
                 | _ => []))
        | _ => none
      ⟨jStrField kvs "session_id", jStrField kvs "timestamp_utc",
       jStrField kvs "endpoint", jBoolField kvs "router_correct",
       jNumField kvs "latency_ms_total", jNumField kvs "latency_ms_model",
       jStrField kvs "user_id",
       jTruthy ((jget kvs "resolved").getD (Json.jbool false)), em⟩
  | _ => ⟨none, none, none, none, none, none, none, false, none⟩

/-- Embedding of `kpi_rollup.read_traces`: a missing file yields no traces;
otherwise each stripped non-empty line is JSON-parsed, malformed lines are
skipped. -/
def read_traces (file : Option (List String)) : List Json :=
  match file with
  | none => []
  | some lines =>
      lines.filterMap (fun l =>
        let s := pyStrip l
        if s = "" then none
        else
          match parseJson s with
          | Except.ok j => some j
          | Except.error _ => none)

/-- Embedding of `kpi_rollup.rollup`: the error dict when no traces were
read, otherwise the full KPI panel. -/
def rollup (day_path : String) (file : Option (List String)) : RollupResult :=
  let traces := read_traces file
  if traces.length = 0 then
    ⟨dateOf day_path, 0, some "No traces found", none⟩
  else
    let trs := traces.map toTraceRecord
    let endpoints := uniqueStrs (trs.filterMap (fun tr =>
      match tr.endpoint with
      | some e => if e ≠ "" then some e else none
      | none => none))
    ⟨dateOf day_path, traces.length, none,
     some ⟨compute_grounded_accuracy_rate trs,
           compute_routing_accuracy trs,
           compute_metric_parity_mape trs,
           compute_hallucination_rate trs,
           compute_contradiction_rate trs,
           compute_latency_percentiles trs none,
           endpoints.map (fun e => (e, compute_latency_percentiles trs (some e))),
           compute_adoption_metrics trs,
           compute_resolution_metrics trs⟩⟩

end Apromore

namespace Apromore

/-! Concrete inputs used by the claim witnesses and counterexamples. -/

/-- One-row table with a negative duration and a ten-second lead time. -/
def c6Table : Table :=
  ⟨["case_id", "duration_seconds", "start_time", "end_time"],
   [[Cell.str "A", Cell.num (-100), Cell.time 0, Cell.time 10]]⟩

/-- Two cases, one of which has an unparsable start timestamp. -/
def c7Table : Table :=
  ⟨["case_id", "start_time"],
   [[Cell.str "A", Cell.str "garbage"], [Cell.str "B", Cell.time 0]]⟩

/-- Two cases with parsable start timestamps one day apart. -/
def c7okTable : Table :=
  ⟨["case_id", "start_time"],
   [[Cell.str "A", Cell.time 0], [Cell.str "B", Cell.time 86400]]⟩

/-- A case-count claim. -/
def c1exClaim : NumClaim := ⟨"cases", none, 3, "", "3 cases", false⟩

/-- A table with a case column and no rows. -/
def c1emptyTable : Table := ⟨["case_id"], []⟩

/-- A table with a case column and one row. -/
def c1okTable : Table := ⟨["case_id"], [[Cell.str "A"]]⟩

/-- A claim whose name hits the panel's non-numeric `dataset` entry. -/
def c3Claim : NumClaim := ⟨"dataset", none, 5, "", "dataset: 5", false⟩

/-- A claim whose name routes nowhere and misses the panel. -/
def c3UnroutableClaim : NumClaim := ⟨"zzz", none, 1, "", "", false⟩

/-- Text with a pattern-1 claim and a facts block carrying the same
`(name, slice, value)` key. -/
def c4Text : String :=
  "flow_efficiency: 0.62\n```facts\n\x7b\"metrics\": \x7b\"flow_efficiency\": 0.62\x7d\x7d\n```"

/-- The claim `extract_numeric_claims` keeps on `c4Text`. -/
def c4KeptClaim : NumClaim :=
  ⟨"flow_efficiency", none, 31/50, "", "flow_efficiency: 0.62\n", false⟩

/-- Text with a pattern-1 claim and a facts block carrying a different key. -/
def c4WitText : String :=
  "flow_efficiency: 0.62\n```facts\n\x7b\"metrics\": \x7b\"handoffs\": 14\x7d\x7d\n```"

/-- The facts-block claim extracted from `c4WitText`. -/
def c4WitFactsClaim : NumClaim := ⟨"handoffs", none, 14, "", "handoffs=14", true⟩

/-- The pattern-1 claim extracted from `c4Text` and `c4WitText`. -/
def c5Claim : NumClaim := ⟨"a", none, 1, "", "a: 1", false⟩

/-- An `extracted_metrics` record with one flow-efficiency claim. -/
def c8em (v : ℚ) : ExtractedMetrics :=
  ⟨true, none, [], false, [⟨some "flow_efficiency", some v⟩]⟩

/-- A one-claim trace in session `s` at timestamp `ts`. -/
def c8tr (ts : String) (v : ℚ) : TraceRecord :=
  ⟨some "s", some ts, none, none, none, none, none, false, some (c8em v)⟩

/-- One session claiming flow efficiency 0.6 then 0.8. -/
def c8ex1 : List TraceRecord :=
  [c8tr "2024-01-01T00" (3/5), c8tr "2024-01-01T01" (4/5)]

/-- One session claiming flow efficiency 0.6 then 0.61. -/
def c8ex2 : List TraceRecord :=
  [c8tr "2024-01-01T00" (3/5), c8tr "2024-01-01T01" (61/100)]

/-- A day file whose lines are blank or unparsable. -/
def c9File : Option (List String) := some ["", "not json", "  "]

end Apromore

namespace Apromore

/-- The spec's pass rule, stated from its words: count-like names use an
absolute tolerance of one; all others require the percentage error (with
the degenerate zero-recomputed case) to be at most the tolerance, equality
included. -/
def c2SpecPass (tol : ℚ) (name : String) (claimed q : ℚ) : Bool :=
  let err := |claimed - q|
  let pct := if q ≠ 0 then err / |q| else if err > tol then err else 0
  if ["cases", "case_count", "users", "activities", "teams", "handoffs"].contains name
      || strContains name "count" || strContains name "aging" then
    decide (err ≤ 1)
  else decide (pct ≤ tol)

end Apromore

namespace Apromore

/-! Helper lemmas shared by the claim theorems. -/

theorem flow_frame_id (t : Table) : flow_efficiency_frame t = t := by
  unfold flow_efficiency_frame lfWrite
  split
  · rfl
  · split
    · split <;> rfl
    · rfl

theorem throughput_frame_id (t : Table) : throughput_minutes_frame t = t := by
  unfold throughput_minutes_frame lfWrite
  split
  · rfl
  · split
    · split <;> rfl
    · rfl

theorem panel_frame_id (t : Table) : compute_panel_metrics_frame t = t := by
  unfold compute_panel_metrics_frame lfWrite
  simp only [flow_frame_id, throughput_frame_id]
  split
  · split <;> rfl
  · rfl

/-- C10: `filter_dataframe`, `flow_efficiency`, `throughput_minutes` and
`compute_panel_metrics` leave the input dataframe unchanged — in each write
skeleton the caller's object after the call equals the object before it,
because every item assignment follows a `copy()` that rebinds the local to
a fresh object and row filtering only allocates new frames. -/
theorem c10_no_input_mutation :
    (∀ t f, filter_dataframe_frame t f = t) ∧
    (∀ t, flow_efficiency_frame t = t) ∧
    (∀ t, throughput_minutes_frame t = t) ∧
    (∀ t, compute_panel_metrics_frame t = t) :=
  ⟨fun _ _ => rfl, flow_frame_id, throughput_frame_id, panel_frame_id⟩

/-- C2: for a claim recomputed to a non-null (and non-NaN) value, the pass
flag of `recompute_metrics` is exactly the spec's rule — absolute error at
most 1 for count-like names, percentage error at most the tolerance
(equality passing) otherwise — and the boundary example claim 110 against
recomputed 100 at tolerance 0.02 has percentage error 0.10 and fails. -/
theorem c2_pass_rule :
    (∀ tol name claimed q,
      (compareNum tol name claimed (some q)).passV =
        some (c2SpecPass tol name claimed q)) ∧
    (compareNum (1/50) "avg_duration" 110 (some 100)).passV = some false ∧
    (compareNum (1/50) "avg_duration" 110 (some 100)).pct_err =
      some (some (1/10)) := by
  have hgen : ∀ tol name claimed q,
      (compareNum tol name claimed (some q)).passV =
        some (c2SpecPass tol name claimed q) := by
    intro tol name claimed q
    simp only [compareNum, c2SpecPass, countLikeName, pAbs, pSub, pDiv, pLe, pNe0,
      Option.map_some]
    split_ifs <;> simp_all
    split_ifs <;> simp_all
    linarith
  have h1 : (["cases", "case_count", "users", "activities", "teams",
      "handoffs"].contains "avg_duration"
      || strContains "avg_duration" "count"
      || strContains "avg_duration" "aging") = false := by decide
  refine ⟨hgen, ?_, ?_⟩
  · rw [hgen]
    have h2 : c2SpecPass (1/50) "avg_duration" 110 100 = false := by
      simp only [c2SpecPass, h1]
      norm_num
    rw [h2]
  · simp only [compareNum, pAbs, pSub, pDiv, pLe, pNe0, Option.map_some]
    norm_num

/-- C9: a missing day file, or one whose lines are all blank or
unparsable, makes `rollup` return the error dictionary — trace count zero,
a non-null error string, and no KPI panel — without raising. -/
theorem c9_empty_rollup :
    ∀ path file,
      (file = none ∨
        ∀ l ∈ file.getD [], pyStrip l = "" ∨ (parseJson (pyStrip l)).isOk = false) →
      (rollup path file).trace_count = 0 ∧
      (rollup path file).errorR = some "No traces found" ∧
      (rollup path file).kpis = none := by
  intro path file h
  have hrt : read_traces file = [] := by
    cases file with
    | none => rfl
    | some lines =>
        rcases h with h | h
        · exact absurd h (by simp)
        · unfold read_traces
          rw [List.filterMap_eq_nil_iff]
          intro l hl
          rcases h l (by simpa using hl) with h1 | h1
          · simp [h1]
          · cases hp : parseJson (pyStrip l) with
            | ok j => rw [hp] at h1; simp [Except.isOk, Except.toBool] at h1
            | error e => simp [hp]
  unfold rollup
  rw [hrt]
  exact ⟨rfl, rfl, rfl⟩

theorem foldl_add_coerce_nonneg (l : List (Cell × Cell)) (acc : ℚ)
    (hacc : 0 ≤ acc)
    (h : ∀ p ∈ l, ∀ q, coerceNum p.2 = some q → 0 ≤ q) :
    0 ≤ l.foldl (fun a p => a + (coerceNum p.2).getD 0) acc := by
  induction l generalizing acc with
  | nil => simpa using hacc
  | cons p t ih =>
      simp only [List.foldl_cons]
      apply ih
      · have hp : 0 ≤ (coerceNum p.2).getD 0 := by
          cases hc : coerceNum p.2 with
          | none => simp
          | some q => simpa using h p (by simp) q hc
        linarith
      · intro x hx q hq
        exact h x (by simp [hx]) q hq

theorem clampBounds (work denom : ℚ) (hw : 0 ≤ work) (hd : 0 < denom) :
    0 ≤ min 1 (work / denom) ∧ min 1 (work / denom) ≤ 1 :=
  ⟨le_min (by norm_num) (div_nonneg hw hd.le), min_le_left _ _⟩

theorem mapM_except_length {α β ε : Type} (f : α → Except ε β) :
    ∀ (xs : List α) (ys : List β), xs.mapM f = Except.ok ys →
      ys.length = xs.length := by
  intro xs
  induction xs with
  | nil => intro ys h; simp only [List.mapM_nil] at h; cases h; rfl
  | cons a t ih =>
      intro ys h
      simp only [List.mapM_cons] at h
      cases hfa : f a with
      | error e => rw [hfa] at h; simp [Bind.bind, Except.bind] at h
      | ok b =>
          rw [hfa] at h
          cases hmt : t.mapM f with
          | error e =>
              rw [hmt] at h; simp [Bind.bind, Except.bind, Pure.pure] at h
          | ok bs =>
              rw [hmt] at h
              simp only [Bind.bind, Except.bind, Pure.pure] at h
              cases h
              simp [ih bs hmt]

theorem getCol_cases (t : Table) (col : String) (c : Cell)
    (hc : c ∈ t.getCol col) : c = Cell.null ∨ ∃ r ∈ t.rows, c ∈ r := by
  unfold Table.getCol at hc
  cases hfi : t.cols.findIdx? (fun x => x == col) with
  | none => rw [hfi] at hc; cases hc
  | some i =>
      rw [hfi] at hc
      rcases List.mem_map.mp hc with ⟨r, hr, heq⟩
      subst heq
      simp only [List.getD]
      cases hg : r.get? i with
      | none => left; rfl
      | some x => right; exact ⟨r, hr, by simpa using List.get?_mem hg⟩

theorem totalWork_nonneg (t : Table)
    (hcell : ∀ r ∈ t.rows, ∀ c ∈ r, ∀ q, coerceNum c = some q → 0 ≤ q)
    (ccol dcol : String) :
    0 ≤ totalWorkTime (t.getCol ccol) (t.getCol dcol) := by
  unfold totalWorkTime
  apply foldl_add_coerce_nonneg _ _ le_rfl
  intro p hp q hq
  obtain ⟨a, b⟩ := p
  have h1 : (a, b) ∈ (t.getCol ccol).zip (t.getCol dcol) :=
    List.mem_of_mem_filter hp
  have h2 : b ∈ t.getCol dcol := (List.of_mem_zip h1).2
  rcases getCol_cases t dcol b h2 with h3 | ⟨r, hr, hb⟩
  · subst h3; simp [coerceNum] at hq
  · exact hcell r hr b hb q hq

theorem flow_branch_bounds (work : ℚ) (n : ℕ) (tier : Option ℚ)
    (hw : 0 ≤ work) (ht : ∀ r, tier = some r → 0 ≤ r ∧ r ≤ 1) :
    0 ≤ (match tier with
         | some r => r
         | none =>
             if work + n * 300 > 0 then min 1 (work / (work + n * 300))
             else 1/2) ∧
    (match tier with
     | some r => r
     | none =>
         if work + n * 300 > 0 then min 1 (work / (work + n * 300))
         else 1/2) ≤ 1 := by
  cases tier with
  | some r => exact ht r rfl
  | none =>
      split_ifs with hp
      · exact clampBounds _ _ hw hp
      · norm_num

/-- C6 (amended): for every table whose numerically-coercible cells are all
nonnegative — in particular all durations — `flow_efficiency` lies in
`[0, 1]`: each tier's ratio is nonnegative and clamped above by `1`, and
the fallbacks `0`, `0.5` are in range.  (Without the nonnegativity
restriction the value can be negative, see the counterexample.) -/
theorem c6_flow_efficiency_range :
    ∀ t : Table,
      (∀ r ∈ t.rows, ∀ c ∈ r, ∀ q, coerceNum c = some q → 0 ≤ q) →
      0 ≤ flow_efficiency t ∧ flow_efficiency t ≤ 1 := by
  intro t hcell
  unfold flow_efficiency
  split
  · norm_num
  · split
    · refine flow_branch_bounds _ _ _ (totalWork_nonneg t hcell _ _) ?_
      intro r hr
      cases hs : find_column t ["start_time", "start", "timestamp"] with
      | none => rw [hs] at hr; simp at hr
      | some scol =>
          cases he : find_column t ["end_time", "end"] with
          | none => rw [hs, he] at hr; simp at hr
          | some ecol =>
              rw [hs, he] at hr
              dsimp only at hr
              split_ifs at hr with hc
              cases hr
              exact clampBounds _ _ (totalWork_nonneg t hcell _ _) hc.2
    · norm_num

/-- C6 counterexample: a one-row table with duration `-100` and a
ten-second timestamp lead time makes `flow_efficiency` return `-10`,
outside `[0, 1]`. -/
theorem c6_counterexample :
    flow_efficiency c6Table = -10 ∧ ¬(0 ≤ flow_efficiency c6Table) :=
  ⟨by decide, by decide⟩

/-- Witness for C6 at a concrete table. -/
theorem c6_witness :
    0 ≤ flow_efficiency c1okTable ∧ flow_efficiency c1okTable ≤ 1 :=
  c6_flow_efficiency_range c1okTable (by decide)

theorem processClaim_name (base : Table) (panel : List (String × PyVal))
    (tol : ℚ) (c : NumClaim) (r : VResult)
    (h : processClaim base panel tol c = Except.ok r) : r.name = c.name := by
  unfold processClaim dispatchTry at h
  cases hv : metricDispatch (workingTable base c) panel c with
  | vnone => rw [hv] at h; cases h; rfl
  | num pf => rw [hv] at h; cases h; rfl
  | vstr s => rw [hv] at h; cases h
  | vobj => rw [hv] at h; cases h

theorem mapM_processClaim_names (base : Table) (panel : List (String × PyVal))
    (tol : ℚ) :
    ∀ (cs : List NumClaim) (rs : List VResult),
      cs.mapM (processClaim base panel tol) = Except.ok rs →
      rs.map VResult.name = cs.map NumClaim.name := by
  intro cs
  induction cs with
  | nil => intro rs h; rw [List.mapM_nil] at h; cases h; rfl
  | cons a t ih =>
      intro rs h
      rw [List.mapM_cons] at h
      cases hfa : processClaim base panel tol a with
      | error e => rw [hfa] at h; simp [Bind.bind, Except.bind] at h
      | ok b =>
          rw [hfa] at h
          cases hmt : t.mapM (processClaim base panel tol) with
          | error e => rw [hmt] at h; simp [Bind.bind, Except.bind] at h
          | ok bs =>
              rw [hmt] at h
              simp only [Bind.bind, Except.bind, Pure.pure] at h
              cases h
              simp [processClaim_name _ _ _ _ _ hfa, ih bs hmt]

/-- C1 (amended): whenever `recompute_metrics` returns a result list — the
dataset slice is non-empty and no uncaught exception aborted the call — it
returns exactly one result per input claim, names in input order; an empty
slice instead short-circuits to the empty list (see the counterexample). -/
theorem c1_one_result_per_claim :
    ∀ claims (t : Table) ds tol rs,
      t.rows.length ≠ 0 →
      recompute_metrics claims t ds tol = Except.ok rs →
      rs.map VResult.name = claims.map NumClaim.name := by
  intro claims t ds tol rs hne h
  unfold recompute_metrics at h
  rw [if_neg hne] at h
  cases hp : compute_panel_metrics t ds with
  | error e => rw [hp] at h; simp [Bind.bind, Except.bind] at h
  | ok panel =>
      rw [hp] at h
      simp only [Bind.bind, Except.bind] at h
      exact mapM_processClaim_names t panel tol claims rs h

/-- C1 counterexample: with one claim and an empty dataset slice,
`recompute_metrics` returns the empty list, not one result per claim. -/
theorem c1_counterexample :
    recompute_metrics [c1exClaim] c1emptyTable "salesforce" (1/50) =
      Except.ok [] ∧ [c1exClaim].length = 1 :=
  ⟨by decide, rfl⟩

/-- Witness for C1 on a one-row slice. -/
theorem c1_witness :
    ([⟨"cases", 3, some (some 1), some false, some (some 2), some (some 2),
       none⟩] : List VResult).map VResult.name =
      [c1exClaim].map NumClaim.name :=
  c1_one_result_per_claim [c1exClaim] c1okTable "salesforce" (1/50) _
    (by decide) (by decide)

/-- C3 counterexample: a claim named `dataset` routes to the panel's string
entry, and the comparison step's `TypeError` propagates out of
`recompute_metrics` instead of being recorded with `pass = null`. -/
theorem c3_counterexample :
    recompute_metrics [c3Claim] c1okTable "salesforce" (1/50) =
      Except.error "unsupported operand type(s) for -: float and str" := by
  decide

/-- C3 (amended): a claim whose name routes to no metric and misses the
panel yields `pass = null` with error `Metric not recomputable`; the
`except` handler, when an exception is caught during recomputation, records
`pass = false` (not null) with the message; but a non-numeric panel
fallback raises uncaught in the comparison step (see the counterexample). -/
theorem c3_error_paths :
    (∀ base panel tol c,
      metricDispatch (workingTable base c) panel c = PyVal.vnone →
      processClaim base panel tol c =
        Except.ok (notRecomputable c.name c.value)) ∧
    (∀ n cl, (notRecomputable n cl).passV = none ∧
      (notRecomputable n cl).errorV = some "Metric not recomputable") ∧
    (∀ n cl msg, (exceptionResult n cl msg).passV = some false ∧
      (exceptionResult n cl msg).errorV = some msg) := by
  refine ⟨?_, fun n cl => ⟨rfl, rfl⟩, fun n cl msg => ⟨rfl, rfl⟩⟩
  intro base panel tol c h
  unfold processClaim dispatchTry
  rw [h]

theorem bucket_partition (ages : List (Option ℚ)) :
    ages.countP (fun a => match a with
        | some q => decide (q ≤ 7) | none => false)
      + ages.countP (fun a => match a with
        | some q => decide (7 < q ∧ q ≤ 14) | none => false)
      + ages.countP (fun a => match a with
        | some q => decide (14 < q) | none => false)
      = ages.countP (fun a => a.isSome) := by
  induction ages with
  | nil => rfl
  | cons a t ih =>
      cases a with
      | none => simpa [List.countP_cons] using ih
      | some q =>
          simp only [List.countP_cons, decide_eq_true_eq, Option.isSome_some,
            if_true]
          by_cases h1 : q ≤ 7
          · rw [if_pos h1, if_neg (fun h => absurd h.1 (not_lt.mpr h1)),
              if_neg (not_lt.mpr (le_trans h1 (by norm_num)))]
            omega
          · by_cases h2 : q ≤ 14
            · rw [if_neg h1, if_pos ⟨not_le.mp h1, h2⟩, if_neg (not_lt.mpr h2)]
              omega
            · rw [if_neg h1, if_neg (fun h => absurd h.2 h2),
                if_pos (not_le.mp h2)]
              omega

theorem getCol_nil (t : Table) (col : String) (h : t.rows = []) :
    t.getCol col = [] := by
  unfold Table.getCol
  cases t.cols.findIdx? (fun x => x == col) <;> simp [h]

/-- C7 (amended): when a case column and a start column both resolve and
the per-case minimum computation does not raise, the three aging-bucket
counts sum to the number of distinct cases whose earliest start parses as a
timestamp; in particular, when every case's earliest start parses, the sum
equals the number of distinct case identifiers.  (A case whose earliest
start does not parse — or a missing column, which yields all-zero buckets —
breaks the unconditional equality, see the counterexample.) -/
theorem c7_bucket_sum :
    ∀ (t : Table) (ccol scol : String) (mins : List (Option ℚ)),
      find_column t ["case_id", "case", "id"] = some ccol →
      find_column t ["start_time", "start", "timestamp"] = some scol →
      caseStartMins (t.getCol ccol) (t.getCol scol) = Except.ok mins →
      ((case_aging_buckets t).b0_7 + (case_aging_buckets t).b8_14 +
        (case_aging_buckets t).bOver14 = (mins.filter Option.isSome).length) ∧
      ((∀ m ∈ mins, m.isSome) →
        (case_aging_buckets t).b0_7 + (case_aging_buckets t).b8_14 +
          (case_aging_buckets t).bOver14 = nunique (t.getCol ccol)) := by
  intro t ccol scol mins h1 h2 h3
  have hlen : mins.length = (groupKeys (t.getCol ccol)).length := by
    unfold caseStartMins at h3
    exact mapM_except_length _ _ _ h3
  have hsum :
      (case_aging_buckets t).b0_7 + (case_aging_buckets t).b8_14 +
        (case_aging_buckets t).bOver14 = mins.countP (fun m => m.isSome) := by
    unfold case_aging_buckets
    split
    · next hrows =>
        have h0 : t.rows = [] := List.length_eq_zero.mp hrows
        rw [getCol_nil t ccol h0, getCol_nil t scol h0] at h3
        have : mins = [] := by
          have h4 : caseStartMins [] [] = Except.ok [] := rfl
          rw [h4] at h3
          cases h3
          rfl
        simp [this]
    · rw [h1, h2]
      dsimp only
      rw [h3]
      dsimp only
      rw [bucket_partition]
      rw [List.countP_map]
      apply List.countP_congr
      intro m _
      simp [Function.comp]
  refine ⟨by rw [hsum, List.countP_eq_length_filter], ?_⟩
  intro hall
  rw [hsum]
  have : mins.countP (fun m => m.isSome) = mins.length :=
    List.countP_eq_length.mpr (fun m hm => by simpa using hall m hm)
  rw [this, hlen]
  rfl

/-- C7 counterexample: with one of two cases carrying an unparsable start
timestamp, the buckets sum to 1 while the table has 2 distinct cases. -/
theorem c7_counterexample :
    ((case_aging_buckets c7Table).b0_7 + (case_aging_buckets c7Table).b8_14 +
      (case_aging_buckets c7Table).bOver14 = 1) ∧
    nunique (c7Table.getCol "case_id") = 2 :=
  ⟨by decide, by decide⟩

/-- Witness for C7 at a table whose starts all parse. -/
theorem c7_witness :
    (case_aging_buckets c7okTable).b0_7 + (case_aging_buckets c7okTable).b8_14 +
      (case_aging_buckets c7okTable).bOver14 =
      nunique (c7okTable.getCol "case_id") :=
  (c7_bucket_sum c7okTable "case_id" "start_time" [some 0, some 86400]
    (by decide) (by decide) (by decide)).2 (by decide)

/-- Witness for C3's unroutable path at a concrete claim. -/
theorem c3_witness :
    processClaim c1okTable [] (1/50) c3UnroutableClaim =
      Except.ok (notRecomputable "zzz" 1) :=
  c3_error_paths.1 c1okTable [] (1/50) c3UnroutableClaim (by decide)

theorem consecContra_iff (vs : List ℚ) :
    consecContra vs = true ↔
      ∃ i p c, vs[i]? = some p ∧ vs[i + 1]? = some c ∧ p ≠ 0 ∧
        |c - p| / |p| > 1 / 10 := by
  induction vs with
  | nil =>
      simp only [consecContra]
      constructor
      · intro h; simp at h
      · rintro ⟨i, p, c, hp, _, _, _⟩; simp at hp
  | cons a t ih =>
      cases t with
      | nil =>
          simp only [consecContra]
          constructor
          · intro h; simp at h
          · rintro ⟨i, p, c, _, hc, _, _⟩
            rw [List.getElem?_cons_succ] at hc
            simp at hc
      | cons b t2 =>
          have hstep : consecContra (a :: b :: t2) =
              ((decide (a ≠ 0) && decide (|b - a| / |a| > 1 / 10))
                || consecContra (b :: t2)) := rfl
          rw [hstep]
          constructor
          · intro h
            rw [Bool.or_eq_true] at h
            rcases h with h1 | h2
            · rw [Bool.and_eq_true] at h1
              exact ⟨0, a, b, by simp, by simp, by simpa using h1.1,
                by simpa using h1.2⟩
            · obtain ⟨i, p, c, hp, hc, h3, h4⟩ := ih.mp h2
              exact ⟨i + 1, p, c, by simpa using hp, by simpa using hc, h3, h4⟩
          · rintro ⟨i, p, c, hp, hc, h3, h4⟩
            rw [Bool.or_eq_true]
            cases i with
            | zero =>
                simp at hp hc
                subst hp; subst hc
                exact Or.inl (by
                  simp only [Bool.and_eq_true, decide_eq_true_eq]
                  exact ⟨h3, h4⟩)
            | succ j =>
                rw [List.getElem?_cons_succ] at hp hc
                exact Or.inr (ih.mpr ⟨j, p, c, hp, hc, h3, h4⟩)

/-- C8: a session counts as contradicted exactly when, for some metric in
its history, two consecutive claimed values (traces in timestamp order)
have a non-zero earlier value and a relative change above 10%; the rate is
contradicted sessions over claim-bearing sessions; and the spec's two
examples compute to 1.0 and 0.0. -/
theorem c8_contradiction_rate :
    (∀ straces : List (String × List ClaimRec),
      sessionHasContradiction straces = true ↔
        ∃ nv ∈ metricHistory ((sortByTs straces).map Prod.snd).flatten,
          ∃ i p c, nv.2[i]? = some p ∧ nv.2[i + 1]? = some c ∧ p ≠ 0 ∧
            |c - p| / |p| > 1 / 10) ∧
    (∀ traces, groupPairs (claimEntries traces) ≠ [] →
      compute_contradiction_rate traces =
        some ((((groupPairs (claimEntries traces)).filter
          (fun s => sessionHasContradiction s.2)).length : ℚ) /
          (groupPairs (claimEntries traces)).length)) ∧
    compute_contradiction_rate c8ex1 = some 1 ∧
    compute_contradiction_rate c8ex2 = some 0 := by
  refine ⟨?_, ?_, by decide, by decide⟩
  · intro straces
    unfold sessionHasContradiction
    rw [List.any_eq_true]
    constructor
    · rintro ⟨nv, hnv, hc⟩; exact ⟨nv, hnv, (consecContra_iff nv.2).mp hc⟩
    · rintro ⟨nv, hnv, hc⟩; exact ⟨nv, hnv, (consecContra_iff nv.2).mpr hc⟩
  · intro traces hne
    unfold compute_contradiction_rate
    rw [if_neg (by simpa [List.isEmpty_iff] using hne)]

/-- Witness for C8: the rate formula applied at the first example. -/
theorem c8_witness :
    compute_contradiction_rate c8ex1 =
      some ((((groupPairs (claimEntries c8ex1)).filter
        (fun s => sessionHasContradiction s.2)).length : ℚ) /
        (groupPairs (claimEntries c8ex1)).length) :=
  c8_contradiction_rate.2.1 c8ex1 (by decide)

theorem dedup_mem_not_seen :
    ∀ (cs : List NumClaim) (seen : List (String × Option String × ℚ))
      (c : NumClaim), c ∈ dedupClaims cs seen → claimKey c ∉ seen := by
  intro cs
  induction cs with
  | nil => intro seen c h; cases h
  | cons a t ih =>
      intro seen c h
      unfold dedupClaims at h
      split_ifs at h with ha
      · exact ih seen c h
      · rcases List.mem_cons.mp h with rfl | h2
        · exact ha
        · intro hmem
          exact ih _ c h2 (List.mem_cons_of_mem _ hmem)

theorem dedup_pairwise :
    ∀ (cs : List NumClaim) (seen : List (String × Option String × ℚ)),
      (dedupClaims cs seen).Pairwise (fun a b => claimKey a ≠ claimKey b) := by
  intro cs
  induction cs with
  | nil => intro seen; exact List.Pairwise.nil
  | cons a t ih =>
      intro seen
      unfold dedupClaims
      split_ifs with ha
      · exact ih seen
      · refine List.Pairwise.cons ?_ (ih _)
        intro b hb heq
        exact dedup_mem_not_seen t _ b hb (heq ▸ List.mem_cons_self _ _)

theorem dedup_find :
    ∀ (cs : List NumClaim) (seen : List (String × Option String × ℚ))
      (c : NumClaim), c ∈ dedupClaims cs seen →
      cs.find? (fun d => decide (claimKey d = claimKey c)) = some c := by
  intro cs
  induction cs with
  | nil => intro seen c h; cases h
  | cons a t ih =>
      intro seen c h
      unfold dedupClaims at h
      split_ifs at h with ha
      · have hc := dedup_mem_not_seen t seen c h
        have hne : claimKey a ≠ claimKey c := fun he => hc (he ▸ ha)
        rw [List.find?_cons_of_neg _ (by simp [hne])]
        exact ih seen c h
      · rcases List.mem_cons.mp h with rfl | h2
        · rw [List.find?_cons_of_pos _ (by simp)]
        · have hc := dedup_mem_not_seen t _ c h2
          have hne : claimKey a ≠ claimKey c :=
            fun he => hc (he ▸ List.mem_cons_self _ _)
          rw [List.find?_cons_of_neg _ (by simp [hne])]
          exact ih _ c h2

theorem dedup_sublist :
    ∀ (cs : List NumClaim) (seen : List (String × Option String × ℚ)),
      (dedupClaims cs seen).Sublist cs := by
  intro cs
  induction cs with
  | nil => intro seen; simp [dedupClaims]
  | cons a t ih =>
      intro seen
      unfold dedupClaims
      split_ifs
      · exact (ih seen).cons a
      · exact (ih _).cons₂ a

theorem extract_list_eq (text : String) (raw l : List NumClaim)
    (h1 : rawClaims text = Except.ok raw)
    (h2 : extract_numeric_claims text = Except.ok l) :
    l = dedupClaims raw [] := by
  unfold extract_numeric_claims at h2
  rw [h1] at h2
  simp only [Bind.bind, Except.bind] at h2
  cases h2
  rfl

/-- C5: for every text on which extraction succeeds, no two returned
claims share the `(name, slice, value)` key, the returned list is a
sublist of the raw claims in extraction order (patterns 1-4 then facts
blocks, appearance order within each), and each returned claim is the
first raw claim with its key. -/
theorem c5_dedup_unique :
    ∀ (text : String) (raw l : List NumClaim),
      rawClaims text = Except.ok raw →
      extract_numeric_claims text = Except.ok l →
      l.Pairwise (fun a b => claimKey a ≠ claimKey b) ∧
      l.Sublist raw ∧
      ∀ c ∈ l, raw.find? (fun d => decide (claimKey d = claimKey c)) = some c := by
  intro text raw l h1 h2
  have he : l = dedupClaims raw [] := extract_list_eq text raw l h1 h2
  subst he
  exact ⟨dedup_pairwise raw [], dedup_sublist raw [],
    fun c hc => dedup_find raw [] c hc⟩

/-- Witness for C5 at a concrete text. -/
theorem c5_witness :
    [c5Claim].find? (fun d => decide (claimKey d = claimKey c5Claim)) =
      some c5Claim :=
  (c5_dedup_unique "a: 1" [c5Claim] [c5Claim] (by decide) (by decide)).2.2
    c5Claim (by decide)

/-- The claims produced by patterns 1-4 only, in extraction order. -/
def patternOnlyClaims (text : String) : List NumClaim :=
  pattern1Claims text ++ pattern2Claims text ++ pattern3Claims text
    ++ pattern4Claims text

theorem pattern_only_not_facts :
    ∀ (text : String) (c : NumClaim), c ∈ patternOnlyClaims text →
      c.from_facts_block = false := by
  intro text c h
  unfold patternOnlyClaims at h
  rcases List.mem_append.mp h with h | h4
  · rcases List.mem_append.mp h with h | h3
    · rcases List.mem_append.mp h with h1 | h2
      · rcases List.mem_filterMap.mp h1 with ⟨m, _, hm⟩
        rcases Option.map_eq_some'.mp hm with ⟨v, _, hc⟩
        rw [← hc]
      · rcases List.mem_filterMap.mp h2 with ⟨m, _, hm⟩
        rcases Option.map_eq_some'.mp hm with ⟨v, _, hc⟩
        rw [← hc]
    · rcases List.mem_filterMap.mp h3 with ⟨m, _, hm⟩
      rcases Option.map_eq_some'.mp hm with ⟨v, _, hc⟩
      rw [← hc]
  · rcases List.mem_filterMap.mp h4 with ⟨m, _, hm⟩
    rcases Option.map_eq_some'.mp hm with ⟨v, _, hc⟩
    rw [← hc]

theorem find?_append_left {α : Type} (p : α → Bool) (l1 l2 : List α)
    (h : (l1.find? p).isSome) : (l1 ++ l2).find? p = l1.find? p := by
  induction l1 with
  | nil => simp at h
  | cons a t ih =>
      by_cases hpa : p a = true
      · simp [List.find?_cons, hpa]
      · have h' : (t.find? p).isSome := by
          rwa [List.find?_cons_of_neg _ hpa] at h
        rw [List.cons_append, List.find?_cons_of_neg _ hpa,
          List.find?_cons_of_neg _ hpa]
        exact ih h'

/-- C4 (amended): pattern 1-4 claims precede facts-block claims in
extraction order, so on a key collision the dedup keeps the pattern claim
(`from_facts_block = false`), not the facts-block one; a facts-block claim
survives only when its key is absent from the pattern claims. -/
theorem c4_pattern_precedence :
    ∀ (text : String) (raw l : List NumClaim) (c p : NumClaim),
      rawClaims text = Except.ok raw →
      extract_numeric_claims text = Except.ok l →
      c ∈ l → c.from_facts_block = true →
      p ∈ patternOnlyClaims text →
      claimKey p ≠ claimKey c := by
  intro text raw l c p h1 h2 hcl hcf hp heq
  obtain ⟨f, hraw⟩ : ∃ f, raw = patternOnlyClaims text ++ f := by
    unfold rawClaims at h1
    cases hfc : factsClaims text with
    | error e => rw [hfc] at h1; simp [Bind.bind, Except.bind] at h1
    | ok f =>
        rw [hfc] at h1
        simp only [Bind.bind, Except.bind] at h1
        cases h1
        exact ⟨f, by simp [patternOnlyClaims, List.append_assoc]⟩
  have he : l = dedupClaims raw [] := extract_list_eq text raw l h1 h2
  subst he
  have hfind := dedup_find raw [] c hcl
  have hsome :
      ((patternOnlyClaims text).find?
        (fun d => decide (claimKey d = claimKey c))).isSome := by
    rw [List.find?_isSome]
    exact ⟨p, hp, by simp [heq]⟩
  rw [hraw, find?_append_left _ _ _ hsome] at hfind
  have hcmem : c ∈ patternOnlyClaims text := List.mem_of_find?_eq_some hfind
  have hff := pattern_only_not_facts text c hcmem
  rw [hcf] at hff
  cases hff

/-- C4 counterexample: on a text where a pattern-1 claim and a facts-block
claim share the key, the one claim extraction returns is the pattern one,
with `from_facts_block = false` — not the facts-block one. -/
theorem c4_counterexample :
    extract_numeric_claims c4Text = Except.ok [c4KeptClaim] ∧
    c4KeptClaim.from_facts_block = false :=
  ⟨by decide, rfl⟩

/-- Witness for C4: on a text whose facts-block claim survives, its key
differs from the pattern claim's key. -/
theorem c4_witness : claimKey c4KeptClaim ≠ claimKey c4WitFactsClaim :=
  c4_pattern_precedence c4WitText [c4KeptClaim, c4WitFactsClaim]
    [c4KeptClaim, c4WitFactsClaim] c4WitFactsClaim c4KeptClaim
    (by decide) (by decide) (by decide) rfl (by decide)

/-- Witness for C9 at a concrete path and day file. -/
theorem c9_witness :
    (rollup "logs/traces-20240101.jsonl" c9File).trace_count = 0 ∧
    (rollup "logs/traces-20240101.jsonl" c9File).errorR = some "No traces found" ∧
    (rollup "logs/traces-20240101.jsonl" c9File).kpis = none :=
  c9_empty_rollup "logs/traces-20240101.jsonl" c9File (Or.inr (by decide))

end Apromore
